import Mathlib

/-!
Shallow embedding of the mixminion client core (`lib/mixminion/ClientMain.py`)
and proofs about its behaviour.

The source is Python 2.  Byte strings are modelled as `List Nat` or `String`,
numbers as `Int`/`Nat`, fallible code as `Except MixErr` or `Option`.
External collaborators (crypto primitives, descriptor parser, PRNG,
filesystem) are modelled from the interface the specification gives them;
each such definition carries a doc comment starting `Modelled from the
spec:`.
-/

/-- Error outcomes of the embedded operations.  The source raises
`MixError`/`MixFatalError`/`ParseError` with message strings; the embedding
distinguishes them by constructor. -/
inductive MixErr where
  | identityKeyConflict
  | alreadyImported
  | descriptorExpired
  | descriptorSuperseded
  | noValidDescriptor
  | unknownDescriptor
  | noRelaysKnown
  | noEndServersKnown
  | capabilityViolation
  | noUsableSurbs
  | swapMismatch
  | twoWildcards
  | twoSwapPoints
  | hopsMismatch
  | emptyLeg
  | addressParseError
  | keyErrorLastCleaned
  | valueErrorLastCleaned
  | badMagic
  | truncated
  | wrongPassword
  | descriptorReadFailed
  | pyAttributeError
  | pyIndexError
  | pyAssertionError
  | fuelExhausted
  deriving DecidableEq, Repr

/-! ## Key-value store used by the SURB log (`anydbm` database)

The SURB log file is a string-to-string database.  It is modelled as an
association list with unique keys; `dbSet` replaces an existing binding in
place and appends a fresh one at the end. -/

abbrev DB := List (String × String)

def dbGet (db : DB) (k : String) : Option String :=
  List.lookup k db

def dbSet (db : DB) (k v : String) : DB :=
  match db with
  | [] => [(k, v)]
  | (k0, v0) :: rest =>
      if k0 = k then (k0, v) :: rest else (k0, v0) :: dbSet rest k v

def dbDel (db : DB) (k : String) : DB :=
  db.filter (fun e => !(e.1 = k))

/-- Embedding of Python 2 `str < number` comparison, as it occurs in
`SURBLog.clean` (`self.log[hash] < now`, where the stored value is a string
and `now` is a number).  In CPython 2, values of different types are ordered
by type, and every numeric value compares less than every string, so a
string is never less than a number: the comparison is always `False`. -/
def py2StrLtNum (_s : String) (_n : Int) : Bool := false

/-- Python `s.lower()` on the ASCII strings this program handles. -/
def pyLower (s : String) : String :=
  String.mk (s.toList.map Char.toLower)

/-- Python `s.startswith(pre)`. -/
def pyStartsWith (s pre : String) : Bool :=
  s.toList.take pre.toList.length == pre.toList

/-- Python `s[n:]` for a non-negative index. -/
def pyStrDrop (s : String) (n : Nat) : String :=
  String.mk (s.toList.drop n)

/-- Python `s.strip()`: remove leading and trailing whitespace. -/
def pyStrip (s : String) : String :=
  String.mk
    (((s.toList.dropWhile Char.isWhitespace).reverse.dropWhile Char.isWhitespace).reverse)

/-- Decimal digits to a natural number. -/
def digitsToNat (l : List Char) : Nat :=
  l.foldl (fun acc c => 10 * acc + (c.toNat - 48)) 0

/-- Embedding of Python `int(s)` on the decimal strings this program writes
(`str(now)`); returns `none` on a string that is not a decimal numeral,
modelling the `ValueError`. -/
def pyIntDec (s : String) : Option Int :=
  match s.toList with
  | [] => none
  | c :: rest =>
      if c = '-' then
        if rest ≠ [] ∧ rest.all Char.isDigit then some (-(digitsToNat rest : Int))
        else none
      else
        if (c :: rest).all Char.isDigit then some (digitsToNat (c :: rest) : Int)
        else none

/-! ## SURBLog (`ClientMain.SURBLog`) -/

/-- `SURBLog.clean` (ClientMain.py:971-982).  Collects every key whose
stored value is `<` the numeric threshold (a Python 2 string-to-number
comparison, see `py2StrLtNum`), deletes the collected keys, then writes
`LAST_CLEANED = str(now)`.  The caller passes `now` explicitly; the
`now=None` default is `surbLogCleanDefault`. -/
def SURBLog.clean (db : DB) (now : Int) : DB :=
  let allHashes := db.map Prod.fst
  let removed := allHashes.filter (fun h => py2StrLtNum ((dbGet db h).getD "") now)
  let db1 := removed.foldl dbDel db
  dbSet db1 "LAST_CLEANED" (toString now)

/-- `SURBLog.clean` with the defaulted argument: `now = time.time() + 60*60`
(ClientMain.py:972-973), given the current time. -/
def surbLogCleanDefault (db : DB) (timeNow : Int) : DB :=
  SURBLog.clean db (timeNow + 60 * 60)

/-- `SURBLog.__init__` (ClientMain.py:945-953): opens the database, reads
`int(self.log['LAST_CLEANED'])` — a `KeyError` if the key is absent, a
`ValueError` if it is not a numeral — and cleans when more than 24 hours
have elapsed or `forceClean` is set. -/
def surbLogInit (db : DB) (timeNow : Int) (forceClean : Bool) : Except MixErr DB :=
  match dbGet db "LAST_CLEANED" with
  | none => .error .keyErrorLastCleaned
  | some v =>
      match pyIntDec v with
      | none => .error .valueErrorLastCleaned
      | some lastCleaned =>
          if lastCleaned < timeNow - 24 * 60 * 60 ∨ forceClean then
            .ok (surbLogCleanDefault db timeNow)
          else
            .ok db

/-- A reply block, reduced to the fields the client uses: `pack()` is the
serialized byte string, modelled by an injective code `packEnc`, and
`timestamp` is the expiry time. -/
structure ReplyBlock where
  packEnc : Nat
  timestamp : Int
  deriving DecidableEq, Repr

/-- Modelled from the spec: SURB-log keys are `hex(SHA-1(surb.pack()))`;
SHA-1 and the hex encoding live in external modules, and the composite is
modelled as an injective encoding of the packed bytes. -/
def surbHashKey (surb : ReplyBlock) : String :=
  toString surb.packEnc

/-- `SURBLog.isSURBUsed` (ClientMain.py:959-965). -/
def SURBLog.isSURBUsed (db : DB) (surb : ReplyBlock) : Bool :=
  (dbGet db (surbHashKey surb)).isSome

/-- `SURBLog.markSURBUsed` (ClientMain.py:967-969): stores
`str(surb.timestamp)` under the SURB's hash key. -/
def SURBLog.markSURBUsed (db : DB) (surb : ReplyBlock) : DB :=
  dbSet db (surbHashKey surb) (toString surb.timestamp)

/-! ## Client lock and packet pool (`clientLock`, `ClientPool`)

The cross-process lock is re-entrant within a process; its re-entry count
is modelled as a natural number. -/

/-- `clientLock()` (ClientMain.py:47-50): blocking acquire, increments the
process re-entry count. -/
def clientLock (n : Nat) : Nat := n + 1

/-- `clientUnlock()` (ClientMain.py:52-54): release, decrements the
re-entry count. -/
def clientUnlock (n : Nat) : Nat := n - 1

/-- One spooled packet file: the unpickled 4-tuple
`("PACKET-0", message, firstHop, previousMidnight(now))`. -/
structure SpoolFile where
  magic : String
  message : String
  firstHop : String
  enqueuedAt : Int
  deriving DecidableEq, Repr

/-- Modelled from the spec: `previousMidnight` from `mixminion.Common` —
the midnight preceding `now` (floor to a day boundary). -/
def previousMidnight (now : Int) : Int :=
  86400 * (now / 86400)

/-- Pool-affecting state: the lock re-entry count and the spool directory
contents. -/
structure PoolSt where
  lockCount : Nat
  entries : List SpoolFile
  deriving DecidableEq, Repr

/-- `ClientPool.poolPacket` (ClientMain.py:997-1003): acquires the client
lock, writes a fresh uniquely-named `pkt_` file holding the 4-tuple, and
returns the handle.  Note the acquired lock is not released here. -/
def ClientPool.poolPacket (st : PoolSt) (message firstHop : String) (now : Int) :
    PoolSt × Nat :=
  let st1 : PoolSt := { st with lockCount := clientLock st.lockCount }
  let handle := st1.entries.length
  ({ st1 with
      entries := st1.entries ++ [⟨"PACKET-0", message, firstHop, previousMidnight now⟩] },
   handle)

/-- `ClientPool.getPacket` (ClientMain.py:1014-1021): unpickles the file;
if the magic is not `"PACKET-0"`, logs an error and returns `None`
(modelled as `none`); otherwise returns the `(message, firstHop, when)`
triple. -/
def ClientPool.getPacket (f : SpoolFile) : Option (String × String × Int) :=
  if f.magic ≠ "PACKET-0" then none
  else some (f.message, f.firstHop, f.enqueuedAt)

/-- Loop body of `MixminionClient.poolMessages` (ClientMain.py:1264-1268):
pools each message in turn, collecting the handles. -/
def poolMessagesLoop (st : PoolSt) (msgs : List String) (routing : String) (now : Int)
    (acc : List Nat) : PoolSt × List Nat :=
  match msgs with
  | [] => (st, acc)
  | m :: rest =>
      let (st1, h) := ClientPool.poolPacket st m routing now
      poolMessagesLoop st1 rest routing now (acc ++ [h])

/-- `MixminionClient.poolMessages` (ClientMain.py:1257-1275): takes the
client lock, pools every message via `ClientPool.poolPacket`, and releases
the lock once in the `finally` block. -/
def poolMessages (st : PoolSt) (msgs : List String) (routing : String) (now : Int) :
    PoolSt × List Nat :=
  let st1 : PoolSt := { st with lockCount := clientLock st.lockCount }
  let (st2, handles) := poolMessagesLoop st1 msgs routing now []
  ({ st2 with lockCount := clientUnlock st2.lockCount }, handles)

/-! ## generateReplyMessage (`MixminionClient.generateReplyMessage`) -/

/-- `MixminionClient.generateReplyMessage` (ClientMain.py:1140-1174), after
the lock is taken and the SURB log opened.  Walks the SURB list in order;
skips a SURB that is already used, or whose remaining lifetime is below 60
seconds, or below `3*60*30 = 5400` seconds (each skip logs a warning with
its own wording); on the first remaining SURB it builds the reply packet
(the external `mixminion.BuildMessage.buildReplyMessage`, modelled as the
`(payload, surb)` pair), marks the SURB used, and returns the packet with
`servers[0]` (modelled as `servers.head?`).  Raises `NoUsableSurbs` when
the list is exhausted. -/
def generateReplyMessage (db : DB) (payload : String) (servers : List String)
    (surbList : List ReplyBlock) (now : Int) :
    Except MixErr ((String × ReplyBlock × Option String) × DB) :=
  match surbList with
  | [] => .error .noUsableSurbs
  | surb :: rest =>
      let timeLeft := surb.timestamp - now
      if SURBLog.isSURBUsed db surb then
        generateReplyMessage db payload servers rest now
      else if timeLeft < 60 then
        generateReplyMessage db payload servers rest now
      else if timeLeft < 3 * 60 * 30 then
        generateReplyMessage db payload servers rest now
      else
        .ok ((payload, surb, servers.head?), SURBLog.markSURBUsed db surb)

/-- A SURB the reply flow will actually use: not marked used in the log,
and at least `3*60*30 = 5400` seconds of life left. -/
def usableSURB (db : DB) (now : Int) (surb : ReplyBlock) : Prop :=
  SURBLog.isSURBUsed db surb = false ∧ ¬ surb.timestamp - now < 3 * 60 * 30

instance (db : DB) (now : Int) (surb : ReplyBlock) : Decidable (usableSURB db now surb) :=
  inferInstanceAs (Decidable (_ ∧ _))

/-! ## Client keyring (`ClientKeyring._save` / `ClientKeyring._load`)

The raw cryptographic primitives (SHA-1 and the CTR-mode stream cipher,
from `mixminion.Crypto`) are external collaborators; they are modelled
symbolically, in the standard Dolev-Yao style: bytes of the file are
symbols, the digest of a symbol string is a fresh 20-symbol term, the CTR
keystream under a key is a family of fresh terms, and XOR-ing a symbol
with a keystream symbol masks it, the same masking being its own
inverse. -/

mutual
/-- A symbolic byte of key-file material: a concrete byte, the `i`-th
symbol of a SHA-1 digest, the `i`-th CTR keystream symbol under a key, or
a masked (XOR-ed) symbol. -/
inductive KSym where
  | byte (b : Nat)
  | hsym (s : KSyms) (i : Nat)
  | prf (key : KSyms) (i : Nat)
  | masked (x k : KSym)
  deriving DecidableEq, Repr
/-- Strings of symbolic bytes as they occur inside digest/keystream
terms. -/
inductive KSyms where
  | nil
  | cons (a : KSym) (l : KSyms)
  deriving DecidableEq, Repr
end

def toKSyms : List KSym → KSyms
  | [] => .nil
  | a :: l => .cons a (toKSyms l)

def bytesOf (l : List Nat) : List KSym :=
  l.map KSym.byte

/-- Modelled from the spec: SHA-1, an external primitive, idealized as a
collision-free 20-symbol digest of its input. -/
def sha1 (s : List KSym) : List KSym :=
  (List.range 20).map (fun i => KSym.hsym (toKSyms s) i)

/-- Modelled from the spec: the CTR keystream, symbol `i` of the stream
generated under `key`. -/
def ksByte (key : List KSym) (i : Nat) : KSym :=
  KSym.prf (toKSyms key) i

/-- Modelled from the spec: XOR of a data symbol with a keystream symbol.
Masking with the same keystream symbol twice is the identity; masking an
already-masked symbol with a different keystream symbol stacks. -/
def symXor (a k : KSym) : KSym :=
  match a with
  | KSym.masked x k2 => if k2 = k then x else KSym.masked (KSym.masked x k2) k
  | x => KSym.masked x k

/-- `a.isMasked` is true on stacked (still-masked) symbols. -/
def KSym.isMasked : KSym → Bool
  | .masked _ _ => true
  | _ => false

/-- The CTR pass over a symbol string starting at counter `i`. -/
def ctrXor (key : List KSym) : Nat → List KSym → List KSym
  | _, [] => []
  | i, a :: rest => symXor a (ksByte key i) :: ctrXor key (i + 1) rest

/-- `ctr_crypt(data, key)` from `mixminion.Crypto`: XOR `data` against the
keystream generated under `key`.  Encryption and decryption are the same
operation. -/
def ctr_crypt (data key : List KSym) : List KSym :=
  ctrXor key 0 data

/-- `ClientKeyring._save` (ClientMain.py:859-868): the written key file is
`magic ‖ salt ‖ ctr_crypt(data ‖ sha1(data+salt+magic), key)` with
`key = sha1(salt+password+salt)[:16]`.  The salt, drawn from the PRNG in
the source, is a parameter. -/
def keyring_save (data salt magic password : List Nat) : List KSym :=
  let dataS := bytesOf data
  let saltS := bytesOf salt
  let magicS := bytesOf magic
  let key := (sha1 (saltS ++ bytesOf password ++ saltS)).take 16
  magicS ++ saltS ++ ctr_crypt (dataS ++ sha1 (dataS ++ saltS ++ magicS)) key

/-- `ClientKeyring._load` (ClientMain.py:870-888): checks the magic
prefix, splits off the 8-byte salt, checks the remainder holds at least
the 20-byte MAC, decrypts with `sha1(salt+password+salt)[:16]`, splits
`data ‖ hash` at 20 bytes from the end, and verifies
`hash = sha1(data+salt+magic)`; a mismatch is the `WrongPassword`
("Incorrect password") error. -/
def keyring_load (file : List KSym) (magic password : List Nat) :
    Except MixErr (List KSym) :=
  let magicS := bytesOf magic
  if file.take magicS.length ≠ magicS then .error .badMagic
  else
    let s := file.drop magicS.length
    if s.length < 8 then .error .truncated
    else
      let salt := s.take 8
      let s1 := s.drop 8
      if s1.length < 20 then .error .truncated
      else
        let key := (sha1 (salt ++ bytesOf password ++ salt)).take 16
        let s2 := ctr_crypt s1 key
        let data := s2.take (s2.length - 20)
        let hash := s2.drop (s2.length - 20)
        if hash ≠ sha1 (data ++ salt ++ bytesOf magic) then .error .wrongPassword
        else .ok data

/-! ## Server descriptors and the directory cache (`ClientDirectory`) -/

/-- Modelled from the spec: a parsed server descriptor (`ServerInfo`, from
the external `mixminion.ServerInfo` module), reduced to the fields the
client reads: the nickname, the identity key (an abstract code —
`mixminion.Crypto.pk_same_public_key` is equality of codes), the content
digest (abstract code), the validity interval, the publication time, and
the capability list. -/
structure SInfo where
  nickname : String
  identity : Nat
  digest : Nat
  validAfter : Int
  validUntil : Int
  published : Int
  caps : List String
  deriving DecidableEq, Repr

instance : Inhabited SInfo :=
  ⟨⟨"", 0, 0, 0, 0, 0, []⟩⟩

/-- Modelled from the spec: `ServerInfo.isValidFrom(start, end)` — the
descriptor is continuously valid over `[start, end]`. -/
def SInfo.isValidFrom (i : SInfo) (startAt endAt : Int) : Bool :=
  decide (i.validAfter ≤ startAt) && decide (endAt ≤ i.validUntil)

/-- Modelled from the spec: `ServerInfo.isExpiredAt(when)` — the
valid-until time lies before `when`. -/
def SInfo.isExpiredAt (i : SInfo) (when : Int) : Bool :=
  decide (i.validUntil < when)

/-- Modelled from the spec: `isNewerThan` — published strictly later than
the other descriptor. -/
def SInfo.isNewerThan (a b : SInfo) : Bool :=
  decide (b.published < a.published)

/-- Replacement-or-append update of an association list, as assignment to
a Python dict key behaves. -/
def setAssoc {α β : Type} [DecidableEq α] (u : List (α × β)) (k : α) (v : β) :
    List (α × β) :=
  match u with
  | [] => [(k, v)]
  | (k0, v0) :: rest =>
      if k0 = k then (k0, v) :: rest else (k0, v0) :: setAssoc rest k v

/-- The mutable `ClientDirectory` fields that import touches: the ordered
`serverList` of (descriptor, source) pairs — source `"D"` for the
downloaded directory, `"I:<fname>"` for an imported file — the digest map,
and `lastModified`. -/
structure DirState where
  serverList : List (SInfo × String)
  digestMap : List (Nat × String)
  lastModified : Int
  deriving DecidableEq, Repr

/-- `ClientDirectory.__rebuildTables` builds `byNickname[lc]` by appending
in `serverList` order; the bucket is the sublist of entries whose nickname
lowercases to `lc` (ClientMain.py:348-365). -/
def byNickname (serverList : List (SInfo × String)) (lc : String) :
    List (SInfo × String) :=
  serverList.filter (fun e => pyLower e.1.nickname == lc)

/-- `ClientDirectory.importFromFile` (ClientMain.py:279-321), entered with
the descriptor `info` the external parser produced from the file, the
external `ServerInfo.isSupersededBy` predicate, the current time, and the
uniquified short file name.  The checks run in source order: the identity
loop compares `s.getNickname() == nickname` (exact string equality) and
raises on a key mismatch; then the already-imported digest check, the
expiry check, and the superseded check; on success the descriptor is
appended to `serverList`, the digest map updated, and `lastModified` set. -/
def importFromFile (st : DirState) (info : SInfo)
    (isSupersededBy : SInfo → List SInfo → Bool) (now : Int) (fname : String) :
    Except MixErr DirState :=
  if st.serverList.any (fun e =>
      e.1.nickname == info.nickname && !(e.1.identity == info.identity)) then
    .error .identityKeyConflict
  else if pyStartsWith ((List.lookup info.digest st.digestMap).getD "X") "I:" then
    .error .alreadyImported
  else if info.isExpiredAt now then
    .error .descriptorExpired
  else if byNickname st.serverList (pyLower info.nickname) ≠ [] ∧
      isSupersededBy info
        ((byNickname st.serverList (pyLower info.nickname)).map Prod.fst) = true then
    .error .descriptorSuperseded
  else
    .ok { serverList := st.serverList ++ [(info, "I:" ++ fname)],
          digestMap := setAssoc st.digestMap info.digest ("I:" ++ fname),
          lastModified := now }

/-! ## Address parser (`parseAddress`) -/

/-- Modelled from the spec: the routing-type constants of
`mixminion.Packet`. -/
def DROP_TYPE : Nat := 0x0000

/-- Modelled from the spec: SMTP exit routing type
(`mixminion.Packet.SMTP_TYPE`). -/
def SMTP_TYPE : Nat := 0x0100

/-- Modelled from the spec: MBOX exit routing type
(`mixminion.Packet.MBOX_TYPE`). -/
def MBOX_TYPE : Nat := 0x0101

/-- `Address` (ClientMain.py:1346-1356): exit type, exit routing info, and
optional mandatory last hop. -/
structure Address where
  exitType : Nat
  exitAddress : String
  lastHop : Option String
  deriving DecidableEq, Repr

/-- `Address.getRouting` (ClientMain.py:1355-1356). -/
def Address.getRouting (a : Address) : Nat × String × Option String :=
  (a.exitType, a.exitAddress, a.lastHop)

/-- Helper for Python `s.split(sep, 1)`: split a character list at the
first occurrence of `c`, or `none` when `c` does not occur. -/
def splitOnFirst (c : Char) : List Char → Option (List Char × List Char)
  | [] => none
  | a :: rest =>
      if a = c then some ([], rest)
      else
        match splitOnFirst c rest with
        | none => none
        | some (x, y) => some (a :: x, y)

/-- Python `s.split(c, 1)` for a one-character separator, as an optional
pair; `none` when the separator does not occur (the source then takes the
no-colon branch). -/
def pySplit1 (s : String) (c : Char) : Option (String × String) :=
  (splitOnFirst c s.toList).map (fun q => (String.mk q.1, String.mk q.2))

/-- The whitespace characters of C `isspace`, which Python 2 `int(s, base)`
strips around the number: space, tab, newline, carriage return, vertical
tab and form feed. -/
def pySpaceChar (c : Char) : Bool :=
  c = ' ' || c = '\t' || c = '\n' || c = '\r' || c = Char.ofNat 11 || c = Char.ofNat 12

/-- A hexadecimal digit, either case. -/
def pyIsHexDigit (c : Char) : Bool :=
  c.isDigit || ('a' ≤ c && c ≤ 'f') || ('A' ≤ c && c ≤ 'F')

/-- The value of a hexadecimal digit. -/
def pyHexVal (c : Char) : Nat :=
  if c.isDigit then c.toNat - 48
  else if 'a' ≤ c && c ≤ 'f' then c.toNat - 87
  else c.toNat - 55

/-- Embedding of Python 2 `int(s, 16)` (`PyInt_FromString`): surrounding
whitespace is stripped, then an optional `+`/`-` sign, then an optional
`0x`/`0X` prefix, then one or more hexadecimal digits of either case;
anything else raises `ValueError`, modelled as `none`.  The result is
signed. -/
def pyIntHex (s : String) : Option Int :=
  let l1 := ((s.toList.dropWhile pySpaceChar).reverse.dropWhile pySpaceChar).reverse
  let sgnRest : Int × List Char :=
    match l1 with
    | '+' :: r => (1, r)
    | '-' :: r => (-1, r)
    | r => (1, r)
  let l3 : List Char :=
    match sgnRest.2 with
    | '0' :: 'x' :: r => r
    | '0' :: 'X' :: r => r
    | r₂ => r₂
  if l3 ≠ [] ∧ l3.all pyIsHexDigit then
    some (sgnRest.1 * ((l3.foldl (fun acc c => 16 * acc + pyHexVal c) 0 : Nat) : Int))
  else none

/-- `parseAddress` (ClientMain.py:1301-1344).  The mailbox predicates and
packers are the external `mixminion.Common.isSMTPMailbox`,
`mixminion.Packet.parseMBOXInfo(..).pack()` and
`parseSMTPInfo(..).pack()`; the packers return `none` where the external
parser raises `ParseError`. -/
def parseAddress (isSMTPMailbox : String → Bool)
    (parseMBOXInfoPack parseSMTPInfoPack : String → Option String)
    (s : String) : Except MixErr Address :=
  if pyLower s = "drop" then .ok ⟨DROP_TYPE, "", none⟩
  else if pyLower s = "test" then .ok ⟨0xFFFE, "", none⟩
  else
    match pySplit1 s ':' with
    | none =>
        if isSMTPMailbox s then .ok ⟨SMTP_TYPE, s, none⟩
        else .error .addressParseError
    | some (tp0, val) =>
        if pyStartsWith (pyLower tp0) "0x" then
          match pyIntHex (pyStrDrop (pyLower tp0) 2) with
          | none => .error .addressParseError
          | some n =>
              if 0 ≤ n ∧ n ≤ 0xFFFF then .ok ⟨n.toNat, val, none⟩
              else .error .addressParseError
        else if pyLower tp0 = "mbox" then
          match pySplit1 val '@' with
          | some (mbox, server) =>
              match parseMBOXInfoPack mbox with
              | some packed => .ok ⟨MBOX_TYPE, packed, some server⟩
              | none => .error .addressParseError
          | none =>
              match parseMBOXInfoPack val with
              | some packed => .ok ⟨MBOX_TYPE, packed, none⟩
              | none => .error .addressParseError
        else if pyLower tp0 = "smtp" then
          match parseSMTPInfoPack val with
          | some packed => .ok ⟨SMTP_TYPE, packed, none⟩
          | none => .error .addressParseError
        else if pyLower tp0 = "test" then .ok ⟨0xFFFE, val, none⟩
        else .error .addressParseError

/-- The address grammar of spec §4.G, written from the spec's productions,
with the amendments the code forces: the numeric production accepts `0x`
followed by anything Python 2 `int(s, 16)` accepts — optional surrounding
whitespace, an optional sign, an optional further `0x`/`0X` prefix, then
one or more hexadecimal digits — of value between `0` and `0xFFFF` (not
exactly four digits), and a type-prefixed `test:info` production is added.
Type keywords compare case-insensitively, as the source lowercases them. -/
def specAddressGrammar (isSMTPMailbox : String → Bool)
    (parseMBOXInfoPack parseSMTPInfoPack : String → Option String)
    (s : String) : Prop :=
  pyLower s = "drop" ∨
  pyLower s = "test" ∨
  ((':' ∉ s.toList) ∧ isSMTPMailbox s = true) ∨
  (∃ tp val : String, s = tp ++ ":" ++ val ∧ ':' ∉ tp.toList ∧
    ((pyStartsWith (pyLower tp) "0x" = true ∧
        ∃ n, pyIntHex (pyStrDrop (pyLower tp) 2) = some n ∧ 0 ≤ n ∧ n ≤ 0xFFFF) ∨
     (pyLower tp = "mbox" ∧
        ((∃ m srv : String, val = m ++ "@" ++ srv ∧ '@' ∉ m.toList ∧
            (parseMBOXInfoPack m).isSome = true) ∨
         ('@' ∉ val.toList ∧ (parseMBOXInfoPack val).isSome = true))) ∨
     (pyLower tp = "smtp" ∧ (parseSMTPInfoPack val).isSome = true) ∨
     pyLower tp = "test"))

/-! ## Path string parsing (`parsePath`, ClientMain.py:687-805)

The path string is turned into tokens by globally replacing `":"` with
`",*swap*,"`, splitting on commas, and stripping whitespace
(ClientMain.py:730-732); the token walk then records the wildcard and
swap-marker positions and collects the named entries
(ClientMain.py:733-754); finally the implicit hop count and swap index
are derived and checked against the explicit options
(ClientMain.py:756-801). -/

/-- `path.replace(":", ",*swap*,")` over the character list. -/
def pyReplaceColon : List Char → List Char
  | [] => []
  | c :: rest =>
      if c = ':' then ",*swap*,".toList ++ pyReplaceColon rest
      else c :: pyReplaceColon rest

/-- `s.split(",")`: split a character list on every occurrence of the
separator. -/
def splitOnChar (sep : Char) : List Char → List (List Char)
  | [] => [[]]
  | c :: rest =>
      match splitOnChar sep rest with
      | [] => [[]]
      | cur :: others =>
          if c = sep then [] :: cur :: others else (c :: cur) :: others

/-- ClientMain.py:730-732: expand the colon, split on commas, strip each
entry. -/
def pathSplitTokens (s : String) : List String :=
  (splitOnChar ',' (pyReplaceColon s.toList)).map (fun cs => pyStrip (String.mk cs))

/-- State of the token walk of ClientMain.py:733-754: named entries before
and after the wildcard, and the positions of `*` and of the colon marker
`*swap*` in the token list. -/
structure PathWalk where
  enterPath : List String
  exitPath : List String
  starPos : Option Nat
  swapPos : Option Nat
  deriving DecidableEq, Repr

/-- The token walk of ClientMain.py:742-754, with the running index. -/
def pathWalkAux (st : PathWalk) (idx : Nat) : List String → Except MixErr PathWalk
  | [] => .ok st
  | ent :: rest =>
      if ent = "*" then
        if st.starPos.isSome then .error .twoWildcards
        else pathWalkAux { st with starPos := some idx } (idx + 1) rest
      else if ent = "*swap*" then
        if st.swapPos.isSome then .error .twoSwapPoints
        else pathWalkAux { st with swapPos := some idx } (idx + 1) rest
      else
        if st.starPos.isSome then
          pathWalkAux { st with exitPath := st.exitPath ++ [ent] } (idx + 1) rest
        else
          pathWalkAux { st with enterPath := st.enterPath ++ [ent] } (idx + 1) rest

def pathWalk (tokens : List String) : Except MixErr PathWalk :=
  pathWalkAux ⟨[], [], none, none⟩ 0 tokens

/-- ClientMain.py:794-801: the explicit `nHops` consistency check that
closes `parsePath`'s option handling. -/
def parsePathCheckHops (w : PathWalk) (nHops : Option Int) (myNHops : Int)
    (myNSwap1 : Option Int) :
    Except MixErr (List String × List String × Int × Option Int) :=
  match nHops with
  | some nh =>
      if myNHops ≠ nh then .error .hopsMismatch
      else if nh < ((w.enterPath.length + w.exitPath.length : Nat) : Int) then
        .error .hopsMismatch
      else .ok (w.enterPath, w.exitPath, nh, myNSwap1)
  | none => .ok (w.enterPath, w.exitPath, myNHops, myNSwap1)

/-- ClientMain.py:756-801: derive `myNHops` and `myNSwap` from the walked
tokens and check them against the explicit `nHops`/`nSwap` options.
`addressLastHop` is the truth value of `address.getRouting()[2]` at line
785.  Python truthiness of `nHops` at line 761 treats both `None` and `0`
as absent.  Returns `(enterPath, exitPath, myNHops, myNSwap)`. -/
def parsePathDerive (tokens : List String) (nHops nSwap defaultNHops : Option Int)
    (addressLastHop : Bool) :
    Except MixErr (List String × List String × Int × Option Int) :=
  match pathWalk tokens with
  | .error e => .error e
  | .ok w =>
      let myNHops : Int :=
        if w.starPos = none then (w.enterPath.length : Int)
        else if nHops.getD 0 ≠ 0 then nHops.getD 0
        else match defaultNHops with
          | some d => d
          | none => 6
      let myNSwap : Option Int :=
        match w.swapPos with
        | none => none
        | some sp =>
            match w.starPos with
            | none => some ((sp : Int) - 1)
            | some stp =>
                if sp < stp then some ((sp : Int) - 1)
                else some (myNHops - (tokens.length : Int) + (sp : Int) -
                  (if addressLastHop then 1 else 0))
      match nSwap with
      | some ns =>
          if myNSwap ≠ none ∧ myNSwap ≠ some ns then .error .swapMismatch
          else parsePathCheckHops w nHops myNHops (some ns)
      | none => parsePathCheckHops w nHops myNHops myNSwap

/-! ## Directory queries and path selection
(`ClientDirectory.getServerInfo` / `getPath`, `resolvePath`,
`parsePathLeg`) -/

/-- `ClientDirectory.__rebuildTables`: the capability buckets;
`byCapability[None]` is `allServers`, the whole list in order. -/
def byCapability (serverList : List (SInfo × String)) (cap : Option String) :
    List (SInfo × String) :=
  match cap with
  | none => serverList
  | some c => serverList.filter (fun e => e.1.caps.contains c)

/-- One step of `ClientDirectory.__find`'s deduplication dict
(ClientMain.py:414-422): keep the most recently published descriptor per
lowercased nickname. -/
def findUpdate (u : List (String × SInfo)) (info : SInfo) : List (String × SInfo) :=
  let n := pyLower info.nickname
  match List.lookup n u with
  | some prev => if prev.isNewerThan info then u else setAssoc u n info
  | none => u ++ [(n, info)]

/-- `ClientDirectory.__find` (ClientMain.py:402-424): the entries valid
over `[startAt, endAt]`, deduplicated by lowercased nickname keeping the
most recently published one. -/
def dirFind (lst : List (SInfo × String)) (startAt endAt : Int) : List SInfo :=
  (((lst.map Prod.fst).filter (fun i => i.isValidFrom startAt endAt)).foldl
    findUpdate []).map Prod.snd

/-- A `name` argument to `getServerInfo`/`getPath`: a nickname or file
name, or an already-parsed `ServerInfo` instance. -/
inductive NameSpec where
  | name (s : String)
  | info (i : SInfo)
  deriving DecidableEq, Repr

/-- `ClientDirectory.getServerInfo` (ClientMain.py:461-498).  `fs` models
the filesystem branch: `fs s = none` when no file named `s` exists,
`some none` when it exists but cannot be read or parsed (a `MixError`),
and `some (some i)` for a parsed descriptor.  An invalid `ServerInfo`
instance logs an error and falls off the branch chain, returning `None`
even under `strict`. -/
def getServerInfo (sl : List (SInfo × String)) (fs : String → Option (Option SInfo))
    (name : NameSpec) (startAt endAt : Int) (strict : Bool) :
    Except MixErr (Option SInfo) :=
  match name with
  | .info i =>
      if i.isValidFrom startAt endAt then .ok (some i)
      else .ok none
  | .name s =>
      if byNickname sl (pyLower s) ≠ [] then
        match (dirFind (byNickname sl (pyLower s)) startAt endAt).head? with
        | some i => .ok (some i)
        | none => .error .noValidDescriptor
      else
        match fs s with
        | some (some i) => .ok (some i)
        | some none => .error .descriptorReadFailed
        | none => if strict then .error .unknownDescriptor else .ok none

/-- Modelled from the spec: the injected CSPRNG of path selection.
`shuffleTake l n` is `prng.shuffle(l, n)` (n picks without replacement),
`shuffleAll` is `prng.shuffle(l)`, `pickEnd` the `prng.pick` call choosing
the exit server, and `pickAt k l` the k-th `prng.pick` call of the
middle-hop rejection loop. -/
structure PRNGModel where
  shuffleTake : List SInfo → Nat → List SInfo
  shuffleAll : List SInfo → List SInfo
  pickEnd : List SInfo → SInfo
  pickAt : Nat → List SInfo → SInfo

/-- `[ info.getNickname().lower() for info in l ]` over resolved servers;
a `None` entry raises `AttributeError` in the source. -/
def nickListOf : List (Option SInfo) → Except MixErr (List String)
  | [] => .ok []
  | none :: _ => .error .pyAttributeError
  | some i :: rest =>
      match nickListOf rest with
      | .error e => .error e
      | .ok l => .ok (pyLower i.nickname :: l)

/-- Resolution of the mandatory start/end servers with `strict` set
(ClientMain.py:525-528). -/
def resolveServers (sl : List (SInfo × String)) (fs : String → Option (Option SInfo))
    (startAt endAt : Int) : List NameSpec → Except MixErr (List (Option SInfo))
  | [] => .ok []
  | n :: rest =>
      match getServerInfo sl fs n startAt endAt true with
      | .error e => .error e
      | .ok oi =>
          match resolveServers sl fs startAt endAt rest with
          | .error e => .error e
          | .ok l => .ok (oi :: l)

/-- `startServers[-1].getNickname().lower()` with the
`" (impossible nickname) "` default (ClientMain.py:587-590). -/
def prevNickOf (l : List (Option SInfo)) : Except MixErr String :=
  match l.getLast? with
  | none => .ok " (impossible nickname) "
  | some none => .error .pyAttributeError
  | some (some i) => .ok (pyLower i.nickname)

/-- `endServers[0].getNickname().lower()` with the same default
(ClientMain.py:591-594). -/
def endNickOf (l : List (Option SInfo)) : Except MixErr String :=
  match l.head? with
  | none => .ok " (impossible nickname) "
  | some none => .error .pyAttributeError
  | some (some i) => .ok (pyLower i.nickname)

/-- The rejection-sampling loop of ClientMain.py:596-602: pick middle
servers one at a time, rejecting a pick equal to the previous nickname or
(on the last pick) equal to the exit's nickname.  The source loops until
done; `fuel` bounds the unrolling, with `.error .fuelExhausted` standing
for an unfinished loop. -/
def pickLoop (prng : PRNGModel) (midList : List SInfo) :
    Nat → Nat → String → String → Int → List SInfo → Except MixErr (List SInfo)
  | fuel, k, prevNick, endNick, nNeeded, acc =>
      if nNeeded = 0 then .ok acc
      else
        match fuel with
        | 0 => .error .fuelExhausted
        | fuel' + 1 =>
            let info := prng.pickAt k midList
            let n := pyLower info.nickname
            if n ≠ prevNick ∧ (1 < nNeeded ∨ n ≠ endNick) then
              pickLoop prng midList fuel' (k + 1) n endNick (nNeeded - 1) (acc ++ [info])
            else
              pickLoop prng midList fuel' (k + 1) prevNick endNick nNeeded acc

/-- The middle-hop selection of `ClientDirectory.getPath`
(ClientMain.py:555-623), entered with the resolved start and end servers
and the remaining hop count.  `midList * ceilDiv(nNeeded, 2)` is list
repetition; `ceilDiv` is `mixminion.Common.ceilDiv`. -/
def getPathMid (sl : List (SInfo × String)) (prng : PRNGModel) (fuel : Nat)
    (midCap : Option String) (startAt endAt : Int)
    (starts ends : List (Option SInfo)) (nNeeded : Int) :
    Except MixErr (List (Option SInfo)) :=
  if nNeeded = 0 then .ok (starts ++ ends)
  else
    let midList := dirFind (byCapability sl midCap) startAt endAt
    match nickListOf (starts ++ ends) with
    | .error e => .error e
    | .ok used =>
        let unusedMidList :=
          midList.filter (fun i => !(used.contains (pyLower i.nickname)))
        if nNeeded ≤ (unusedMidList.length : Int) then
          .ok (starts ++ (prng.shuffleTake unusedMidList nNeeded.toNat).map some ++ ends)
        else if 3 ≤ midList.length then
          match prevNickOf starts with
          | .error e => .error e
          | .ok prevNick =>
              match endNickOf ends with
              | .error e => .error e
              | .ok endNick =>
                  match pickLoop prng midList fuel 0 prevNick endNick nNeeded [] with
                  | .error e => .error e
                  | .ok mids => .ok (starts ++ mids.map some ++ ends)
        else if midList.length = 2 then
          .ok (starts ++
            ((List.replicate ((nNeeded.toNat + 1) / 2) (prng.shuffleAll midList)).flatten.take
              nNeeded.toNat).map some ++ ends)
        else if midList.length = 1 then
          .ok (starts ++ midList.map some ++ ends)
        else .error .noRelaysKnown

/-- `ClientDirectory.getPath` (ClientMain.py:500-623).  Resolves the
mandatory servers, computes how many more are needed (`if length:` is
Python truthiness), possibly picks the exit server, and selects the middle
hops. -/
def getPath (sl : List (SInfo × String)) (fs : String → Option (Option SInfo))
    (prng : PRNGModel) (fuel : Nat) (midCap endCap : Option String)
    (length : Option Int) (startServers endServers : List NameSpec)
    (startAt endAt : Int) : Except MixErr (List (Option SInfo)) :=
  match resolveServers sl fs startAt endAt startServers with
  | .error e => .error e
  | .ok starts =>
      match resolveServers sl fs startAt endAt endServers with
      | .error e => .error e
      | .ok ends =>
          let nNeeded : Int :=
            if length.getD 0 ≠ 0 then length.getD 0 - starts.length - ends.length
            else 0
          if nNeeded ≤ 0 then .ok (starts ++ ends)
          else if ends = [] then
            let endList := dirFind (byCapability sl endCap) startAt endAt
            if endList = [] then .error .noEndServersKnown
            else
              match nickListOf starts with
              | .error e => .error e
              | .ok used =>
                  let unusedEndList :=
                    endList.filter (fun i => !(used.contains (pyLower i.nickname)))
                  let endPick :=
                    if unusedEndList ≠ [] then prng.pickEnd unusedEndList
                    else prng.pickEnd endList
                  getPathMid sl prng fuel midCap startAt endAt starts [some endPick]
                    (nNeeded - 1)
          else getPathMid sl prng fuel midCap startAt endAt starts ends nNeeded

/-- The exit capability derived from the routing type
(ClientMain.py:650-655). -/
def exitCapOf (routingType : Option Nat) : Option String :=
  if routingType = some MBOX_TYPE then some "mbox"
  else if routingType = some SMTP_TYPE then some "smtp"
  else none

/-- The relay-capability check over `path[:-1]` (ClientMain.py:669-672); a
violation is the `"Server %s does not support relay"` `MixError`. -/
def checkRelayCaps : List (Option SInfo) → Except MixErr Unit
  | [] => .ok ()
  | none :: _ => .error .pyAttributeError
  | some i :: rest =>
      if i.caps.contains "relay" then checkRelayCaps rest
      else .error .capabilityViolation

/-- The exit-node resolution of ClientMain.py:648-649 (`strict` unset). -/
def resolveExitNode (sl : List (SInfo × String)) (fs : String → Option (Option SInfo))
    (exitNodeName : Option String) (startAt endAt : Int) :
    Except MixErr (Option SInfo) :=
  match exitNodeName with
  | none => .ok none
  | some s => getServerInfo sl fs (.name s) startAt endAt false

/-- The exit-capability check over `path[-1]` (ClientMain.py:674-676); a
violation is the `"Server %s does not support %s"` `MixError`. -/
def checkExitCap (exitCap : Option String) (path : List (Option SInfo)) :
    Except MixErr Unit :=
  match exitCap with
  | none => .ok ()
  | some c =>
      match path.getLast? with
      | none => .error .pyIndexError
      | some none => .error .pyAttributeError
      | some (some i) =>
          if i.caps.contains c then .ok () else .error .capabilityViolation

/-- The swap-point default `nSwap = ceilDiv(len(path),2)-1`
(ClientMain.py:679-680); an explicit `nSwap` is kept as given. -/
def swapIndexOf (nSwap : Option Int) (pathLen : Nat) : Int :=
  match nSwap with
  | some v => v
  | none => (((pathLen + 1) / 2 : Nat) : Int) - 1

/-- `resolvePath` (ClientMain.py:625-685): resolve the address-mandated
exit node, derive the exit capability, build the path through `getPath`,
check capabilities, and split at the swap point.  Negative Python slice
indices below `-1` do not occur (`nSwap = -1` gives the empty first
leg). -/
def resolvePath (sl : List (SInfo × String)) (fs : String → Option (Option SInfo))
    (prng : PRNGModel) (fuel : Nat) (address : Option Address)
    (enterPath exitPath : List NameSpec) (nHops nSwap : Option Int)
    (startAt endAt : Int) (halfPath : Bool) :
    Except MixErr (List (Option SInfo) × List (Option SInfo)) :=
  let routingType : Option Nat :=
    match address with
    | none => none
    | some a => some a.exitType
  let exitNodeName : Option String :=
    match address with
    | none => none
    | some a => a.lastHop
  match resolveExitNode sl fs exitNodeName startAt endAt with
  | .error e => .error e
  | .ok exitNode =>
      let exitCap := exitCapOf routingType
      let exitPath1 :=
        match exitNode with
        | some i => exitPath ++ [NameSpec.info i]
        | none => exitPath
      match getPath sl fs prng fuel (some "relay") exitCap nHops enterPath exitPath1
          startAt endAt with
      | .error e => .error e
      | .ok path =>
          match checkRelayCaps path.dropLast with
          | .error e => .error e
          | .ok _ =>
              match checkExitCap exitCap path with
              | .error e => .error e
              | .ok _ =>
                  let nSwap1 : Int := swapIndexOf nSwap path.length
                  let path1 := path.take (nSwap1 + 1).toNat
                  let path2 := path.drop (nSwap1 + 1).toNat
                  if ¬ halfPath ∧ (path1 = [] ∨ path2 = []) then .error .emptyLeg
                  else .ok (path1, path2)

/-- `parsePath` (ClientMain.py:687-805): tokenize and derive, then hand
the named entries to `resolvePath`. -/
def parsePath (sl : List (SInfo × String)) (fs : String → Option (Option SInfo))
    (prng : PRNGModel) (fuel : Nat) (path : Option String)
    (address : Option Address) (nHops nSwap : Option Int) (startAt endAt : Int)
    (halfPath : Bool) (defaultNHops : Option Int) :
    Except MixErr (List (Option SInfo) × List (Option SInfo)) :=
  let pathStr :=
    match path with
    | none => "*"
    | some s => if s = "" then "*" else s
  match parsePathDerive (pathSplitTokens pathStr) nHops nSwap defaultNHops
      (match address with
       | none => false
       | some a => a.lastHop.isSome) with
  | .error e => .error e
  | .ok (enter, exitP, myNHops, myNSwap) =>
      resolvePath sl fs prng fuel address (enter.map NameSpec.name)
        (exitP.map NameSpec.name) (some myNHops) myNSwap startAt endAt halfPath

/-- `parsePathLeg` (ClientMain.py:807-814): a reply half path — parse with
`nSwap = -1` and `halfPath`, assert the first leg is empty, and return the
second leg alone. -/
def parsePathLeg (sl : List (SInfo × String)) (fs : String → Option (Option SInfo))
    (prng : PRNGModel) (fuel : Nat) (path : Option String) (nHops : Option Int)
    (address : Option Address) (startAt endAt : Int) (defaultNHops : Option Int) :
    Except MixErr (List (Option SInfo)) :=
  match parsePath sl fs prng fuel path address nHops (some (-1)) startAt endAt true
      defaultNHops with
  | .error e => .error e
  | .ok (p1, p2) => if p1 = [] then .ok p2 else .error .pyAssertionError

/-- A relay server descriptor used in the C5 path-selection instances. -/
def relayA : SInfo := ⟨"a", 1, 1, 0, 1000000, 0, ["relay"]⟩

/-- A second relay server descriptor for the C5 instances. -/
def relayB : SInfo := ⟨"b", 2, 2, 0, 1000000, 0, ["relay"]⟩

/-- A deterministic instantiation of the PRNG interface: shuffles are
prefix-takes and the identity, picks take the head. -/
def prngTest : PRNGModel :=
  ⟨fun l k => l.take k, fun l => l, fun l => l.headD default, fun _ l => l.headD default⟩

/-! ## Theorems -/

/-- C10: opening a SURB log whose database has no `LAST_CLEANED` entry — in
particular any freshly created log file — fails with the unhandled
`KeyError` raised by `int(self.log['LAST_CLEANED'])` in the constructor,
before any other operation can run. -/
theorem surbLogInit_missing_lastCleaned (db : DB) (timeNow : Int) (forceClean : Bool)
    (h : dbGet db "LAST_CLEANED" = none) :
    surbLogInit db timeNow forceClean = .error .keyErrorLastCleaned := by
  unfold surbLogInit
  rw [h]

theorem surbLogInit_missing_lastCleaned_witness :
    surbLogInit [] 0 false = .error .keyErrorLastCleaned :=
  surbLogInit_missing_lastCleaned [] 0 false rfl

/-- C2: evaluation at a failing input.  A log holding one entry with stored
expiry `"0"` is cleaned at `now = 7200`: the claim requires the entry to be
removed (its expiry `0` is strictly less than `now + 1` hour), but
`SURBLog.clean` removes nothing — the expiry comparison pits a string
against a number, which is always false in Python 2 — and merely writes
`LAST_CLEANED`. -/
theorem surbLog_clean_removes_nothing :
    SURBLog.clean [("a1", "0")] 7200 = [("a1", "0"), ("LAST_CLEANED", "7200")] ∧
    ((0 : Int) < 7200 + 60 * 60) :=
  ⟨rfl, by decide⟩

/-- C6: evaluation at a failing input.  `poolMessages` on a single message
acquires the client lock once itself and once more inside
`ClientPool.poolPacket`, but only one release is performed, so the lock
re-entry count after the operation is 1, not the 0 it started from. -/
theorem poolMessages_lock_unbalanced :
    (poolMessages ⟨0, []⟩ ["m"] "r" 0).1.lockCount = 1 ∧
    (poolMessages ⟨0, []⟩ ["m"] "r" 0).1.lockCount ≠ 0 := by
  constructor
  · rfl
  · decide

/-- C9: `ClientPool.getPacket` yields no packet (an error is logged and
`None` returned) exactly when the stored magic field differs from
`"PACKET-0"`; when it matches, the stored (packet bytes, first hop,
enqueue time) triple is returned. -/
theorem getPacket_magic (f : SpoolFile) :
    (f.magic ≠ "PACKET-0" → ClientPool.getPacket f = none) ∧
    (f.magic = "PACKET-0" →
      ClientPool.getPacket f = some (f.message, f.firstHop, f.enqueuedAt)) := by
  constructor <;> intro h <;> simp [ClientPool.getPacket, h]

theorem getPacket_magic_witness :
    ClientPool.getPacket ⟨"BADMAGIC", "m", "h", 5⟩ = none ∧
    ClientPool.getPacket ⟨"PACKET-0", "m", "h", 5⟩ = some ("m", "h", 5) :=
  ⟨(getPacket_magic ⟨"BADMAGIC", "m", "h", 5⟩).1 (by decide),
   (getPacket_magic ⟨"PACKET-0", "m", "h", 5⟩).2 rfl⟩

/-- C1: counterexample to the claim as stated.  A single unused SURB with a
full hour of life left (expiry 3600, now 0) is neither marked used nor
expiring within 60 seconds, so the claim requires the flow to use it; the
code instead skips it in the `timeLeft < 3*60*30` branch and fails with
`NoUsableSurbs`. -/
theorem generateReplyMessage_skips_fresh_surb_cex :
    generateReplyMessage [] "payload" ["s1"] [⟨7, 3600⟩] 0 = .error .noUsableSurbs ∧
    SURBLog.isSURBUsed [] ⟨7, 3600⟩ = false ∧
    ¬ ((3600 : Int) - 0 < 60) :=
  ⟨rfl, rfl, by decide⟩

/-- Step lemma: `generateReplyMessage` skips an unusable head SURB. -/
theorem genReply_cons_skip (db : DB) (payload : String) (servers : List String)
    (now : Int) (surb : ReplyBlock) (rest : List ReplyBlock)
    (h : ¬ usableSURB db now surb) :
    generateReplyMessage db payload servers (surb :: rest) now =
      generateReplyMessage db payload servers rest now := by
  by_cases hu : SURBLog.isSURBUsed db surb
  · simp [generateReplyMessage, hu]
  · have h5400 : surb.timestamp - now < 3 * 60 * 30 := by
      by_contra hc
      exact h ⟨Bool.eq_false_iff.mpr hu, hc⟩
    by_cases h60 : surb.timestamp - now < 60
    · simp [generateReplyMessage, hu, h60]
    · simp only [generateReplyMessage, hu, Bool.false_eq_true, if_false, h60, h5400,
        if_true]

/-- Step lemma: `generateReplyMessage` uses a usable head SURB. -/
theorem genReply_cons_use (db : DB) (payload : String) (servers : List String)
    (now : Int) (surb : ReplyBlock) (rest : List ReplyBlock)
    (h : usableSURB db now surb) :
    generateReplyMessage db payload servers (surb :: rest) now =
      .ok ((payload, surb, servers.head?), SURBLog.markSURBUsed db surb) := by
  have h60 : ¬ surb.timestamp - now < 60 := by
    have := h.2
    omega
  simp only [generateReplyMessage, h.1, Bool.false_eq_true, if_false, h60, h.2,
    if_true]

/-- C1 (amended): the reply flow fails with `NoUsableSurbs` exactly when
every SURB in the list is skipped as already used or as expiring within
`3*60*30 = 5400` seconds of now; and for the first SURB that is unused and
has at least 5400 seconds left it builds the reply packet, marks the SURB
used, and hands it back for transmission with the first server of the
leg. -/
theorem generateReplyMessage_first_usable (db : DB) (payload : String)
    (servers : List String) (now : Int) :
    (∀ surbs : List ReplyBlock,
      (generateReplyMessage db payload servers surbs now = .error .noUsableSurbs ↔
        ∀ s ∈ surbs, ¬ usableSURB db now s)) ∧
    (∀ pre (s : ReplyBlock) post, (∀ t ∈ pre, ¬ usableSURB db now t) →
      usableSURB db now s →
      generateReplyMessage db payload servers (pre ++ s :: post) now =
        .ok ((payload, s, servers.head?), SURBLog.markSURBUsed db s)) := by
  constructor
  · intro surbs
    induction surbs with
    | nil => simp [generateReplyMessage]
    | cons surb rest ih =>
        by_cases h : usableSURB db now surb
        · rw [genReply_cons_use db payload servers now surb rest h]
          constructor
          · intro hcontra
            exact absurd hcontra (by simp)
          · intro hall
            exact absurd h (hall surb (List.mem_cons_self _ _))
        · rw [genReply_cons_skip db payload servers now surb rest h, ih]
          constructor
          · intro hall s hs
            rcases List.mem_cons.mp hs with h1 | h1
            · rw [h1]
              exact h
            · exact hall s h1
          · intro hall s hs
            exact hall s (List.mem_cons_of_mem _ hs)
  · intro pre s post hpre hs
    induction pre with
    | nil => simpa using genReply_cons_use db payload servers now s post hs
    | cons t pre ih =>
        rw [List.cons_append,
          genReply_cons_skip db payload servers now t _ (hpre t (List.mem_cons_self _ _))]
        exact ih fun u hu => hpre u (List.mem_cons_of_mem _ hu)

theorem generateReplyMessage_first_usable_witness :
    generateReplyMessage [] "p" ["s1"] [⟨3, 20⟩, ⟨4, 99999⟩] 0 =
      .ok (("p", (⟨4, 99999⟩ : ReplyBlock), some "s1"), SURBLog.markSURBUsed [] ⟨4, 99999⟩) :=
  (generateReplyMessage_first_usable [] "p" ["s1"] 0).2 [⟨3, 20⟩] ⟨4, 99999⟩ []
    (by decide) (by decide)

/-! ### Keyring lemmas -/

theorem toKSyms_inj : ∀ {a b : List KSym}, toKSyms a = toKSyms b → a = b := by
  intro a
  induction a with
  | nil => intro b h; cases b <;> simp_all [toKSyms]
  | cons x l ih =>
      intro b h
      cases b with
      | nil => simp [toKSyms] at h
      | cons y m =>
          simp only [toKSyms, KSyms.cons.injEq] at h
          rw [h.1, ih h.2]

theorem bytesOf_inj {a b : List Nat} (h : bytesOf a = bytesOf b) : a = b := by
  have hb : Function.Injective KSym.byte := fun x y hxy => by
    injection hxy
  exact List.map_injective_iff.mpr hb h

theorem length_bytesOf (l : List Nat) : (bytesOf l).length = l.length :=
  List.length_map _ _

theorem length_sha1 (s : List KSym) : (sha1 s).length = 20 := by
  simp [sha1]

theorem length_ctrXor (key : List KSym) : ∀ (i : Nat) (s : List KSym),
    (ctrXor key i s).length = s.length := by
  intro i s
  induction s generalizing i with
  | nil => rfl
  | cons a rest ih => simp [ctrXor, ih]

theorem symXor_symXor_of_unmasked (a k : KSym) (h : a.isMasked = false) :
    symXor (symXor a k) k = a := by
  cases a with
  | masked x k2 => simp [KSym.isMasked] at h
  | byte b => simp [symXor]
  | hsym s i => simp [symXor]
  | prf s i => simp [symXor]

theorem ctrXor_ctrXor (key : List KSym) : ∀ (i : Nat) (s : List KSym),
    (∀ a ∈ s, a.isMasked = false) → ctrXor key i (ctrXor key i s) = s := by
  intro i s
  induction s generalizing i with
  | nil => intro _; rfl
  | cons a rest ih =>
      intro h
      simp only [ctrXor]
      rw [symXor_symXor_of_unmasked a _ (h a (List.mem_cons_self _ _)),
        ih (i + 1) (fun b hb => h b (List.mem_cons_of_mem _ hb))]

theorem sha1_unmasked (s : List KSym) : ∀ a ∈ sha1 s, a.isMasked = false := by
  intro a ha
  simp only [sha1, List.mem_map] at ha
  obtain ⟨i, _, rfl⟩ := ha
  rfl

theorem bytesOf_unmasked (l : List Nat) : ∀ a ∈ bytesOf l, a.isMasked = false := by
  intro a ha
  simp only [bytesOf, List.mem_map] at ha
  obtain ⟨b, _, rfl⟩ := ha
  rfl

theorem symXor_stack_masked (a k1 k2 : KSym) (ha : a.isMasked = false) (hk : k1 ≠ k2) :
    (symXor (symXor a k1) k2).isMasked = true := by
  cases a with
  | masked x k0 => simp [KSym.isMasked] at ha
  | byte b => simp [symXor, hk, KSym.isMasked]
  | hsym s i => simp [symXor, hk, KSym.isMasked]
  | prf s i => simp [symXor, hk, KSym.isMasked]

theorem ctrXor_cross_masked (key key1 : List KSym) (hk : key ≠ key1) :
    ∀ (i : Nat) (s : List KSym), (∀ a ∈ s, a.isMasked = false) →
    ∀ b ∈ ctrXor key1 i (ctrXor key i s), b.isMasked = true := by
  intro i s
  induction s generalizing i with
  | nil => intro _ b hb; simp [ctrXor] at hb
  | cons a rest ih =>
      intro h b hb
      simp only [ctrXor, List.mem_cons] at hb
      rcases hb with hb | hb
      · rw [hb]
        refine symXor_stack_masked a _ _ (h a (List.mem_cons_self _ _)) ?_
        intro hc
        simp only [ksByte, KSym.prf.injEq] at hc
        exact hk (toKSyms_inj hc.1)
      · exact ih (i + 1) (fun c hc => h c (List.mem_cons_of_mem _ hc)) b hb

theorem sha1_take16 (z : List KSym) :
    (sha1 z).take 16 = (List.range 16).map (fun i => KSym.hsym (toKSyms z) i) := by
  rw [sha1, ← List.map_take]
  congr 1

theorem sha1_take16_inj {x y : List KSym} (h : (sha1 x).take 16 = (sha1 y).take 16) :
    x = y := by
  rw [sha1_take16, sha1_take16] at h
  have h0 := congrArg List.head? h
  rw [List.head?_map, List.head?_map] at h0
  have hr : (List.range 16).head? = some 0 := by decide
  rw [hr] at h0
  simp at h0
  exact toKSyms_inj h0

/-- Parsing a well-formed key file reduces `keyring_load` to the decrypt
and MAC check. -/
theorem keyring_load_structure (magic salt p : List Nat) (ct : List KSym)
    (h8 : salt.length = 8) (hct : 20 ≤ ct.length) :
    keyring_load (bytesOf magic ++ (bytesOf salt ++ ct)) magic p =
      if (ctr_crypt ct ((sha1 (bytesOf salt ++ bytesOf p ++ bytesOf salt)).take 16)).drop
            ((ctr_crypt ct ((sha1 (bytesOf salt ++ bytesOf p ++ bytesOf salt)).take 16)).length - 20) ≠
          sha1 ((ctr_crypt ct ((sha1 (bytesOf salt ++ bytesOf p ++ bytesOf salt)).take 16)).take
              ((ctr_crypt ct ((sha1 (bytesOf salt ++ bytesOf p ++ bytesOf salt)).take 16)).length - 20) ++
            bytesOf salt ++ bytesOf magic) then
        Except.error MixErr.wrongPassword
      else
        Except.ok ((ctr_crypt ct ((sha1 (bytesOf salt ++ bytesOf p ++ bytesOf salt)).take 16)).take
          ((ctr_crypt ct ((sha1 (bytesOf salt ++ bytesOf p ++ bytesOf salt)).take 16)).length - 20)) := by
  have hsalt : (bytesOf salt).length = 8 := by rw [length_bytesOf, h8]
  have hlen : (bytesOf salt ++ ct).length = 8 + ct.length := by
    simp [hsalt]
  simp only [keyring_load, List.take_left, List.drop_left]
  rw [if_neg (by simp), if_neg (by omega)]
  rw [List.take_left' hsalt, List.drop_left' hsalt]
  rw [if_neg (by omega)]

/-- C7: saving 20 bytes of key material under password `p` (any 8-byte
salt) and loading with `p` returns exactly the key material; loading the
same file with any other password `p1` fails with the `WrongPassword`
MAC-mismatch error. -/
theorem keyring_save_load (k salt magic p p1 : List Nat)
    (h20 : k.length = 20) (h8 : salt.length = 8) (hne : p1 ≠ p) :
    keyring_load (keyring_save k salt magic p) magic p = .ok (bytesOf k) ∧
    keyring_load (keyring_save k salt magic p) magic p1 = .error .wrongPassword := by
  have hkS : (bytesOf k).length = 20 := by rw [length_bytesOf, h20]
  have hplen : (bytesOf k ++ sha1 (bytesOf k ++ bytesOf salt ++ bytesOf magic)).length = 40 := by
    simp [length_sha1, hkS]
  have hunmasked : ∀ a ∈ bytesOf k ++ sha1 (bytesOf k ++ bytesOf salt ++ bytesOf magic),
      a.isMasked = false := by
    intro a ha
    rcases List.mem_append.mp ha with ha | ha
    · exact bytesOf_unmasked k a ha
    · exact sha1_unmasked _ a ha
  have hkeyne : (sha1 (bytesOf salt ++ bytesOf p ++ bytesOf salt)).take 16 ≠
      (sha1 (bytesOf salt ++ bytesOf p1 ++ bytesOf salt)).take 16 := by
    intro hc
    apply hne
    have h1 := sha1_take16_inj hc
    have h2 := List.append_cancel_right h1
    have h3 := List.append_cancel_left h2
    exact (bytesOf_inj h3).symm
  have hsave : keyring_save k salt magic p =
      bytesOf magic ++ (bytesOf salt ++
        ctr_crypt (bytesOf k ++ sha1 (bytesOf k ++ bytesOf salt ++ bytesOf magic))
          ((sha1 (bytesOf salt ++ bytesOf p ++ bytesOf salt)).take 16)) := by
    simp only [keyring_save, List.append_assoc]
  have hctlen : (ctr_crypt (bytesOf k ++ sha1 (bytesOf k ++ bytesOf salt ++ bytesOf magic))
      ((sha1 (bytesOf salt ++ bytesOf p ++ bytesOf salt)).take 16)).length = 40 := by
    rw [ctr_crypt, length_ctrXor, hplen]
  constructor
  · rw [hsave, keyring_load_structure magic salt p _ h8 (by rw [hctlen]; norm_num)]
    rw [show ctr_crypt
          (ctr_crypt (bytesOf k ++ sha1 (bytesOf k ++ bytesOf salt ++ bytesOf magic))
            ((sha1 (bytesOf salt ++ bytesOf p ++ bytesOf salt)).take 16))
          ((sha1 (bytesOf salt ++ bytesOf p ++ bytesOf salt)).take 16) =
        bytesOf k ++ sha1 (bytesOf k ++ bytesOf salt ++ bytesOf magic) from
      ctrXor_ctrXor _ 0 _ hunmasked]
    rw [hplen, show (40 : Nat) - 20 = 20 from rfl]
    rw [List.take_left' hkS, List.drop_left' hkS, if_neg (by simp)]
  · rw [hsave, keyring_load_structure magic salt p1 _ h8 (by rw [hctlen]; norm_num)]
    set s2 := ctr_crypt
        (ctr_crypt (bytesOf k ++ sha1 (bytesOf k ++ bytesOf salt ++ bytesOf magic))
          ((sha1 (bytesOf salt ++ bytesOf p ++ bytesOf salt)).take 16))
        ((sha1 (bytesOf salt ++ bytesOf p1 ++ bytesOf salt)).take 16) with hs2def
    have hs2len : s2.length = 40 := by
      rw [hs2def, ctr_crypt, length_ctrXor, hctlen]
    have hmasked : ∀ b ∈ s2, b.isMasked = true := by
      intro b hb
      rw [hs2def] at hb
      exact ctrXor_cross_masked _ _ hkeyne 0 _ hunmasked b hb
    rw [hs2len, show (40 : Nat) - 20 = 20 from rfl]
    rw [if_pos]
    intro hc
    have hdroplen : (s2.drop 20).length = 20 := by
      rw [List.length_drop, hs2len]
    obtain ⟨b, rest, hbr⟩ : ∃ b rest, s2.drop 20 = b :: rest := by
      cases hd : s2.drop 20 with
      | nil => rw [hd] at hdroplen; simp at hdroplen
      | cons b rest => exact ⟨b, rest, rfl⟩
    have hbmem : b ∈ s2 := by
      have hmem : b ∈ s2.drop 20 := by
        rw [hbr]
        exact List.mem_cons_self _ _
      exact List.mem_of_mem_drop hmem
    have hbmask : b.isMasked = true := hmasked b hbmem
    have hhead := congrArg List.head? hc
    rw [hbr] at hhead
    simp only [List.head?_cons, sha1] at hhead
    rw [List.head?_map] at hhead
    have hr : (List.range 20).head? = some 0 := by decide
    rw [hr] at hhead
    simp at hhead
    rw [hhead] at hbmask
    simp [KSym.isMasked] at hbmask

theorem keyring_save_load_witness :
    keyring_load (keyring_save [0,1,2,3,4,5,6,7,8,9,10,11,12,13,14,15,16,17,18,19]
        [7,7,7,7,7,7,7,7] [83,85,82,66,75,69,89,48] [42]) [83,85,82,66,75,69,89,48] [42] =
      .ok (bytesOf [0,1,2,3,4,5,6,7,8,9,10,11,12,13,14,15,16,17,18,19]) ∧
    keyring_load (keyring_save [0,1,2,3,4,5,6,7,8,9,10,11,12,13,14,15,16,17,18,19]
        [7,7,7,7,7,7,7,7] [83,85,82,66,75,69,89,48] [42]) [83,85,82,66,75,69,89,48] [43] =
      .error .wrongPassword :=
  keyring_save_load [0,1,2,3,4,5,6,7,8,9,10,11,12,13,14,15,16,17,18,19]
    [7,7,7,7,7,7,7,7] [83,85,82,66,75,69,89,48] [42] [43]
    (by decide) (by decide) (by decide)

/-! ### Directory import and address parser theorems -/

/-- C3: evaluation at a failing input.  The directory holds a descriptor
nicknamed `"Foo"` with identity key 1; importing a descriptor nicknamed
`"foo"` — equal case-insensitively, different case-sensitively — with
identity key 2 succeeds instead of failing with `IdentityKeyConflict`:
the identity check compares nicknames with exact string equality
(`s.getNickname() == nickname`, ClientMain.py:290) although nicknames are
case-insensitive labels everywhere else in the file. -/
theorem importFromFile_case_conflict :
    importFromFile
      ⟨[(⟨"Foo", 1, 10, 0, 1000, 5, ["relay"]⟩, "D")], [(10, "D")], 0⟩
      ⟨"foo", 2, 11, 0, 1000, 6, ["relay"]⟩
      (fun _ _ => false) 50 "foo-20030125"
      = .ok ⟨[(⟨"Foo", 1, 10, 0, 1000, 5, ["relay"]⟩, "D"),
              (⟨"foo", 2, 11, 0, 1000, 6, ["relay"]⟩, "I:foo-20030125")],
             [(10, "D"), (11, "I:foo-20030125")], 50⟩ ∧
    pyLower "Foo" = pyLower "foo" ∧ (1 : Nat) ≠ 2 := by
  refine ⟨rfl, by decide, by decide⟩

theorem splitOnFirst_none_notMem {c : Char} :
    ∀ {l : List Char}, splitOnFirst c l = none → c ∉ l := by
  intro l
  induction l with
  | nil => intro _ h; simp at h
  | cons a rest ih =>
      intro h hmem
      rw [splitOnFirst] at h
      by_cases hac : a = c
      · simp [hac] at h
      · rw [if_neg hac] at h
        cases hx : splitOnFirst c rest with
        | none =>
            rcases List.mem_cons.mp hmem with h1 | h1
            · exact hac h1.symm
            · exact ih hx h1
        | some pr => rw [hx] at h; simp at h

theorem splitOnFirst_some_decomp {c : Char} :
    ∀ {l x y : List Char}, splitOnFirst c l = some (x, y) →
      l = x ++ c :: y ∧ c ∉ x := by
  intro l
  induction l with
  | nil => intro x y h; simp [splitOnFirst] at h
  | cons a rest ih =>
      intro x y h
      rw [splitOnFirst] at h
      by_cases hac : a = c
      · rw [if_pos hac] at h
        simp only [Option.some.injEq, Prod.mk.injEq] at h
        rw [← h.1, ← h.2, hac]
        exact ⟨rfl, by simp⟩
      · rw [if_neg hac] at h
        cases hx : splitOnFirst c rest with
        | none => rw [hx] at h; simp at h
        | some pr =>
            obtain ⟨x0, y0⟩ := pr
            rw [hx] at h
            simp only [Option.some.injEq, Prod.mk.injEq] at h
            obtain ⟨hd, hnm⟩ := ih hx
            rw [← h.1, ← h.2]
            constructor
            · rw [List.cons_append, hd]
            · intro hmem
              rcases List.mem_cons.mp hmem with h1 | h1
              · exact hac h1.symm
              · exact hnm h1

theorem pySplit1_some_decomp {s : String} {c : Char} {tp val : String}
    (h : pySplit1 s c = some (tp, val)) :
    s = tp ++ String.singleton c ++ val ∧ c ∉ tp.toList := by
  unfold pySplit1 at h
  cases hx : splitOnFirst c s.toList with
  | none => rw [hx] at h; simp at h
  | some pr =>
      obtain ⟨x, y⟩ := pr
      rw [hx] at h
      simp only [Option.map_some', Option.some.injEq, Prod.mk.injEq] at h
      obtain ⟨hd, hnm⟩ := splitOnFirst_some_decomp hx
      constructor
      · apply String.ext
        have h1 : s.data = s.toList := rfl
        rw [h1, hd, ← h.1, ← h.2]
        show x ++ c :: y = (String.mk x ++ String.singleton c ++ String.mk y).data
        show x ++ c :: y = (x ++ [c]) ++ y
        rw [List.append_assoc]
        rfl
      · rw [← h.1]
        exact hnm

theorem pySplit1_none_notMem {s : String} {c : Char} (h : pySplit1 s c = none) :
    c ∉ s.toList := by
  unfold pySplit1 at h
  cases hx : splitOnFirst c s.toList with
  | none => exact splitOnFirst_none_notMem hx
  | some pr => rw [hx] at h; simp at h

/-- C8: counterexample to the claim as stated.  `"0xF:stuff"` writes the
numeric exit type with a single hexadecimal digit, not four, yet
`parseAddress` accepts it; and since Python `int(tp[2:], 16)` also strips
whitespace, accepts a sign and a second `0x` prefix, the inputs
`"0x 10:info"`, `"0x+10:info"` and `"0x0x10:info"` are all accepted with
exit type 16 — only the `0x0000..0xFFFF` value range is checked. -/
theorem parseAddress_short_hex_cex :
    parseAddress (fun _ => false) (fun _ => none) (fun _ => none) "0xF:stuff" =
      .ok ⟨15, "stuff", none⟩ ∧
    parseAddress (fun _ => false) (fun _ => none) (fun _ => none) "0x 10:info" =
      .ok ⟨16, "info", none⟩ ∧
    parseAddress (fun _ => false) (fun _ => none) (fun _ => none) "0x+10:info" =
      .ok ⟨16, "info", none⟩ ∧
    parseAddress (fun _ => false) (fun _ => none) (fun _ => none) "0x0x10:info" =
      .ok ⟨16, "info", none⟩ ∧
    "F".length ≠ 4 := by
  refine ⟨rfl, rfl, rfl, rfl, by decide⟩

/-- C8 (amended): every input `parseAddress` accepts matches a production
of the address grammar, with the numeric production widened to `0x`
followed by anything Python 2 `int(s, 16)` accepts (optional whitespace,
sign and a further `0x` prefix around one or more hex digits of either
case) of value between `0` and `0xFFFF`, and with the `test:info`
production added; every other input fails with `AddressParseError`.  In
particular a numeric exit type is accepted exactly under the widened
production, not only with four digits. -/
theorem parseAddress_only_grammar (isS : String → Bool)
    (pm ps : String → Option String) (s : String) (a : Address)
    (h : parseAddress isS pm ps s = .ok a) :
    specAddressGrammar isS pm ps s := by
  unfold parseAddress at h
  by_cases h1 : pyLower s = "drop"
  · exact Or.inl h1
  · rw [if_neg h1] at h
    by_cases h2 : pyLower s = "test"
    · exact Or.inr (Or.inl h2)
    · rw [if_neg h2] at h
      cases hsp : pySplit1 s ':' with
      | none =>
          simp only [hsp] at h
          refine Or.inr (Or.inr (Or.inl ⟨pySplit1_none_notMem hsp, ?_⟩))
          by_cases h3 : isS s = true
          · exact h3
          · rw [if_neg h3] at h
            exact absurd h (by simp)
      | some pr =>
          obtain ⟨tp, val⟩ := pr
          simp only [hsp] at h
          obtain ⟨hdec, hnc⟩ := pySplit1_some_decomp hsp
          refine Or.inr (Or.inr (Or.inr ⟨tp, val, hdec, hnc, ?_⟩))
          by_cases h0x : pyStartsWith (pyLower tp) "0x" = true
          · rw [if_pos h0x] at h
            cases hhex : pyIntHex (pyStrDrop (pyLower tp) 2) with
            | none => simp only [hhex] at h; exact absurd h (by simp)
            | some n =>
                simp only [hhex] at h
                by_cases hle : 0 ≤ n ∧ n ≤ 0xFFFF
                · exact Or.inl ⟨h0x, n, rfl, hle.1, hle.2⟩
                · rw [if_neg hle] at h
                  exact absurd h (by simp)
          · rw [if_neg h0x] at h
            by_cases hmb : pyLower tp = "mbox"
            · rw [if_pos hmb] at h
              cases hat : pySplit1 val '@' with
              | some pr2 =>
                  obtain ⟨m, srv⟩ := pr2
                  simp only [hat] at h
                  obtain ⟨hdec2, hna⟩ := pySplit1_some_decomp hat
                  cases hpm : pm m with
                  | none => simp only [hpm] at h; exact absurd h (by simp)
                  | some packed =>
                      exact Or.inr (Or.inl ⟨hmb, Or.inl ⟨m, srv, hdec2, hna, by simp [hpm]⟩⟩)
              | none =>
                  simp only [hat] at h
                  cases hpm : pm val with
                  | none => simp only [hpm] at h; exact absurd h (by simp)
                  | some packed =>
                      exact Or.inr (Or.inl ⟨hmb, Or.inr ⟨pySplit1_none_notMem hat, rfl⟩⟩)
            · rw [if_neg hmb] at h
              by_cases hsm : pyLower tp = "smtp"
              · rw [if_pos hsm] at h
                cases hps : ps val with
                | none => simp only [hps] at h; exact absurd h (by simp)
                | some packed =>
                    exact Or.inr (Or.inr (Or.inl ⟨hsm, rfl⟩))
              · rw [if_neg hsm] at h
                by_cases hts : pyLower tp = "test"
                · exact Or.inr (Or.inr (Or.inr hts))
                · rw [if_neg hts] at h
                  exact absurd h (by simp)

theorem parseAddress_only_grammar_witness :
    specAddressGrammar (fun _ => false) (fun _ => none) (fun _ => none) "0x0100:xyz" :=
  parseAddress_only_grammar (fun _ => false) (fun _ => none) (fun _ => none)
    "0x0100:xyz" ⟨256, "xyz", none⟩ rfl

/-! ### Path parsing theorems -/

theorem pathWalkAux_step_name (st : PathWalk) (idx : Nat) (a : String)
    (rest : List String) (ha1 : ¬ a = "*") (ha2 : ¬ a = "*swap*") :
    pathWalkAux st idx (a :: rest) =
      if st.starPos.isSome then
        pathWalkAux { st with exitPath := st.exitPath ++ [a] } (idx + 1) rest
      else
        pathWalkAux { st with enterPath := st.enterPath ++ [a] } (idx + 1) rest := by
  simp [pathWalkAux, ha1, ha2]

theorem pathWalkAux_step_star (st : PathWalk) (idx : Nat) (rest : List String)
    (h : st.starPos = none) :
    pathWalkAux st idx ("*" :: rest) =
      pathWalkAux { st with starPos := some idx } (idx + 1) rest := by
  have hss : st.starPos.isSome = false := by rw [h]; rfl
  simp [pathWalkAux, hss]

theorem pathWalkAux_step_swap (st : PathWalk) (idx : Nat) (rest : List String)
    (h : st.swapPos = none) :
    pathWalkAux st idx ("*swap*" :: rest) =
      pathWalkAux { st with swapPos := some idx } (idx + 1) rest := by
  have hss : st.swapPos.isSome = false := by rw [h]; rfl
  simp [pathWalkAux, show ¬ ("*swap*" : String) = "*" from by decide, hss]

theorem pathWalkAux_names_enter :
    ∀ (l rest : List String) (st : PathWalk) (idx : Nat),
      "*swap*" ∉ l → "*" ∉ l → st.starPos = none →
      pathWalkAux st idx (l ++ rest) =
        pathWalkAux { st with enterPath := st.enterPath ++ l } (idx + l.length) rest := by
  intro l
  induction l with
  | nil =>
      intro rest st idx _ _ _
      cases st
      simp
  | cons a l ih =>
      intro rest st idx hsw hst hnone
      have ha1 : ¬ a = "*" := fun hc => hst (List.mem_cons.mpr (Or.inl hc.symm))
      have ha2 : ¬ a = "*swap*" := fun hc => hsw (List.mem_cons.mpr (Or.inl hc.symm))
      have hss : st.starPos.isSome = false := by rw [hnone]; rfl
      rw [List.cons_append, pathWalkAux_step_name st idx a _ ha1 ha2, hss, if_neg
        (by simp)]
      rw [ih rest { st with enterPath := st.enterPath ++ [a] } (idx + 1)
        (fun hm => hsw (List.mem_cons_of_mem _ hm))
        (fun hm => hst (List.mem_cons_of_mem _ hm)) hnone]
      have h1 : st.enterPath ++ [a] ++ l = st.enterPath ++ a :: l := by simp
      have h2 : idx + 1 + l.length = idx + (a :: l).length := by
        simp only [List.length_cons]
        omega
      rw [h1, h2]

theorem pathWalkAux_names_exit :
    ∀ (l rest : List String) (st : PathWalk) (idx : Nat),
      "*swap*" ∉ l → "*" ∉ l → st.starPos.isSome = true →
      pathWalkAux st idx (l ++ rest) =
        pathWalkAux { st with exitPath := st.exitPath ++ l } (idx + l.length) rest := by
  intro l
  induction l with
  | nil =>
      intro rest st idx _ _ _
      cases st
      simp
  | cons a l ih =>
      intro rest st idx hsw hst hsome
      have ha1 : ¬ a = "*" := fun hc => hst (List.mem_cons.mpr (Or.inl hc.symm))
      have ha2 : ¬ a = "*swap*" := fun hc => hsw (List.mem_cons.mpr (Or.inl hc.symm))
      rw [List.cons_append, pathWalkAux_step_name st idx a _ ha1 ha2, hsome, if_pos rfl]
      rw [ih rest { st with exitPath := st.exitPath ++ [a] } (idx + 1)
        (fun hm => hsw (List.mem_cons_of_mem _ hm))
        (fun hm => hst (List.mem_cons_of_mem _ hm)) hsome]
      have h1 : st.exitPath ++ [a] ++ l = st.exitPath ++ a :: l := by simp
      have h2 : idx + 1 + l.length = idx + (a :: l).length := by
        simp only [List.length_cons]
        omega
      rw [h1, h2]

/-- Walking `pre ++ "*swap*" :: post` with no markers elsewhere: the colon
marker lands at index `pre.length`, no wildcard is seen. -/
theorem pathWalk_noStar (pre post : List String)
    (h1 : "*swap*" ∉ pre) (h2 : "*" ∉ pre) (h3 : "*swap*" ∉ post) (h4 : "*" ∉ post) :
    pathWalk (pre ++ "*swap*" :: post) =
      .ok ⟨pre ++ post, [], none, some pre.length⟩ := by
  unfold pathWalk
  rw [pathWalkAux_names_enter pre ("*swap*" :: post) ⟨[], [], none, none⟩ 0 h1 h2 rfl]
  rw [pathWalkAux_step_swap ⟨[] ++ pre, [], none, none⟩ (0 + pre.length) post rfl]
  rw [show (post : List String) = post ++ [] from (List.append_nil post).symm]
  rw [pathWalkAux_names_enter post [] ⟨[] ++ pre, [], none,
    some (0 + pre.length)⟩ (0 + pre.length + 1) h3 h4 rfl]
  simp [pathWalkAux]

/-- Walking `pre ++ "*swap*" :: (mid ++ "*" :: post)` (colon before the
wildcard): the colon marker lands at index `pre.length`. -/
theorem pathWalk_colonBeforeStar (pre mid post : List String)
    (h1 : "*swap*" ∉ pre) (h2 : "*" ∉ pre) (h3 : "*swap*" ∉ mid) (h4 : "*" ∉ mid)
    (h5 : "*swap*" ∉ post) (h6 : "*" ∉ post) :
    pathWalk (pre ++ "*swap*" :: (mid ++ "*" :: post)) =
      .ok ⟨pre ++ mid, post, some (pre.length + 1 + mid.length), some pre.length⟩ := by
  unfold pathWalk
  rw [pathWalkAux_names_enter pre ("*swap*" :: (mid ++ "*" :: post)) ⟨[], [], none, none⟩
    0 h1 h2 rfl]
  rw [pathWalkAux_step_swap ⟨[] ++ pre, [], none, none⟩ (0 + pre.length)
    (mid ++ "*" :: post) rfl]
  rw [pathWalkAux_names_enter mid ("*" :: post) ⟨[] ++ pre, [], none,
    some (0 + pre.length)⟩ (0 + pre.length + 1) h3 h4 rfl]
  rw [pathWalkAux_step_star ⟨([] ++ pre) ++ mid, [], none, some (0 + pre.length)⟩
    (0 + pre.length + 1 + mid.length) post rfl]
  rw [show (post : List String) = post ++ [] from (List.append_nil post).symm]
  rw [pathWalkAux_names_exit post [] ⟨([] ++ pre) ++ mid, [],
    some (0 + pre.length + 1 + mid.length), some (0 + pre.length)⟩
    (0 + pre.length + 1 + mid.length + 1) h5 h6 rfl]
  simp [pathWalkAux]

/-- Walking `a ++ "*" :: (b ++ "*swap*" :: post)` (colon after the
wildcard): the wildcard lands at index `a.length`, the colon marker at
`a.length + 1 + b.length`. -/
theorem pathWalk_colonAfterStar (a b post : List String)
    (h1 : "*swap*" ∉ a) (h2 : "*" ∉ a) (h3 : "*swap*" ∉ b) (h4 : "*" ∉ b)
    (h5 : "*swap*" ∉ post) (h6 : "*" ∉ post) :
    pathWalk (a ++ "*" :: (b ++ "*swap*" :: post)) =
      .ok ⟨a, b ++ post, some a.length, some (a.length + 1 + b.length)⟩ := by
  unfold pathWalk
  rw [pathWalkAux_names_enter a ("*" :: (b ++ "*swap*" :: post)) ⟨[], [], none, none⟩
    0 h1 h2 rfl]
  rw [pathWalkAux_step_star ⟨[] ++ a, [], none, none⟩ (0 + a.length)
    (b ++ "*swap*" :: post) rfl]
  rw [pathWalkAux_names_exit b ("*swap*" :: post) ⟨[] ++ a, [],
    some (0 + a.length), none⟩ (0 + a.length + 1) h3 h4 rfl]
  rw [pathWalkAux_step_swap ⟨[] ++ a, [] ++ b, some (0 + a.length), none⟩
    (0 + a.length + 1 + b.length) post rfl]
  rw [show (post : List String) = post ++ [] from (List.append_nil post).symm]
  rw [pathWalkAux_names_exit post [] ⟨[] ++ a, [] ++ b, some (0 + a.length),
    some (0 + a.length + 1 + b.length)⟩ (0 + a.length + 1 + b.length + 1)
    h5 h6 rfl]
  simp [pathWalkAux]


/-- `parsePathCheckHops` hands the given swap value through unchanged on
success. -/
theorem parsePathCheckHops_ok (w : PathWalk) (nHops : Option Int) (m : Int)
    (s1 : Option Int) (e x : List String) (h : Int) (sw : Option Int)
    (hok : parsePathCheckHops w nHops m s1 = .ok (e, x, h, sw)) : sw = s1 := by
  unfold parsePathCheckHops at hok
  split at hok
  · split at hok
    · simp at hok
    · split at hok
      · simp at hok
      · simp only [Except.ok.injEq, Prod.mk.injEq] at hok
        exact hok.2.2.2.symm
  · simp only [Except.ok.injEq, Prod.mk.injEq] at hok
    exact hok.2.2.2.symm

/-- C4 cex: the path `"a,*,b:c,d"` with 6 hops has named entries
`a, b, c, d` (`L_path = 4`) and its colon sits after 3 path entries
(`a`, `*`, `b`), or after 2 named entries.  The derived swap index is 3,
but the claim formula `nHops - (L_path - colonPos - 1) - 1` with
`L_path = 4` yields 5 (for `colonPos = 3`) or 4 (for `colonPos = 2`) —
the code uses `len(path)` counting the `*` and `*swap*` markers, not the
named entries. -/
theorem parsePath_swap_formula_cex :
    parsePathDerive (pathSplitTokens "a,*,b:c,d") (some 6) none none false =
      .ok (["a"], ["b", "c", "d"], 6, some 3) ∧
    (6 : Int) - (4 - 3 - 1) - 1 ≠ 3 ∧
    (6 : Int) - (4 - 2 - 1) - 1 ≠ 3 :=
  ⟨rfl, by decide, by decide⟩

/-- C4 (amended): for a path containing a colon, the derived swap index is
the colon's position (the number of path entries before it) minus one when
the colon lies before the wildcard or no wildcard is present; when the
colon lies after the wildcard it is
`nHops - E_after - 1`, where `E_after` counts the named entries after the
colon, decremented by one more when the address supplies a mandatory last
hop; and whenever an explicit `--swap-at` value differs from the derived
index, path parsing fails with `SwapMismatch`. -/
theorem parsePath_swap_derivation (nH v : Int) (d : Option Int) (lastHop : Bool)
    (hnH : nH ≠ 0) :
    (∀ pre post : List String,
      "*swap*" ∉ pre → "*" ∉ pre → "*swap*" ∉ post → "*" ∉ post →
      ((∀ e x h sw,
          parsePathDerive (pre ++ "*swap*" :: post) (some nH) none d lastHop =
            .ok (e, x, h, sw) → sw = some ((pre.length : Int) - 1)) ∧
       (v ≠ (pre.length : Int) - 1 →
          parsePathDerive (pre ++ "*swap*" :: post) (some nH) (some v) d lastHop =
            .error .swapMismatch))) ∧
    (∀ pre mid post : List String,
      "*swap*" ∉ pre → "*" ∉ pre → "*swap*" ∉ mid → "*" ∉ mid →
      "*swap*" ∉ post → "*" ∉ post →
      ((∀ e x h sw,
          parsePathDerive (pre ++ "*swap*" :: (mid ++ "*" :: post)) (some nH) none d
            lastHop = .ok (e, x, h, sw) → sw = some ((pre.length : Int) - 1)) ∧
       (v ≠ (pre.length : Int) - 1 →
          parsePathDerive (pre ++ "*swap*" :: (mid ++ "*" :: post)) (some nH) (some v) d
            lastHop = .error .swapMismatch))) ∧
    (∀ a b post : List String,
      "*swap*" ∉ a → "*" ∉ a → "*swap*" ∉ b → "*" ∉ b →
      "*swap*" ∉ post → "*" ∉ post →
      ((∀ e x h sw,
          parsePathDerive (a ++ "*" :: (b ++ "*swap*" :: post)) (some nH) none d
            lastHop = .ok (e, x, h, sw) →
            sw = some (nH - (post.length : Int) - 1 - (if lastHop then 1 else 0))) ∧
       (v ≠ nH - (post.length : Int) - 1 - (if lastHop then 1 else 0) →
          parsePathDerive (a ++ "*" :: (b ++ "*swap*" :: post)) (some nH) (some v) d
            lastHop = .error .swapMismatch))) := by
  refine ⟨?_, ?_, ?_⟩
  · intro pre post ha hb hc hd
    constructor
    · intro e x h sw hok
      unfold parsePathDerive at hok
      simp only [pathWalk_noStar pre post ha hb hc hd] at hok
      exact parsePathCheckHops_ok _ _ _ _ _ _ _ _ hok
    · intro hv
      unfold parsePathDerive
      simp only [pathWalk_noStar pre post ha hb hc hd]
      rw [if_pos]
      constructor
      · simp
      · simp only [ne_eq, Option.some.injEq]
        intro hc2
        exact hv hc2.symm
  · intro pre mid post h1 h2 h3 h4 h5 h6
    constructor
    · intro e x h sw hok
      unfold parsePathDerive at hok
      simp only [pathWalk_colonBeforeStar pre mid post h1 h2 h3 h4 h5 h6] at hok
      have hlt : pre.length < pre.length + 1 + mid.length := by omega
      rw [if_pos hlt] at hok
      exact parsePathCheckHops_ok _ _ _ _ _ _ _ _ hok
    · intro hv
      unfold parsePathDerive
      simp only [pathWalk_colonBeforeStar pre mid post h1 h2 h3 h4 h5 h6]
      have hlt : pre.length < pre.length + 1 + mid.length := by omega
      rw [if_pos hlt, if_pos]
      constructor
      · simp
      · simp only [ne_eq, Option.some.injEq]
        intro hc2
        exact hv hc2.symm
  · intro a b post h1 h2 h3 h4 h5 h6
    have hlen : ((a ++ "*" :: (b ++ "*swap*" :: post)).length : Int) =
        (a.length : Int) + 1 + b.length + 1 + post.length := by
      simp
      ring
    constructor
    · intro e x h sw hok
      unfold parsePathDerive at hok
      simp only [pathWalk_colonAfterStar a b post h1 h2 h3 h4 h5 h6] at hok
      have hnlt : ¬ (a.length + 1 + b.length < a.length) := by omega
      rw [if_neg hnlt] at hok
      have hsw1 := parsePathCheckHops_ok _ _ _ _ _ _ _ _ hok
      rw [hsw1]
      simp only [if_true, Option.getD, if_false]
      rw [if_pos hnH]
      rw [hlen]
      congr 1
      push_cast
      ring
    · intro hv
      unfold parsePathDerive
      simp only [pathWalk_colonAfterStar a b post h1 h2 h3 h4 h5 h6]
      have hnlt : ¬ (a.length + 1 + b.length < a.length) := by omega
      rw [if_neg hnlt]
      rw [if_pos]
      constructor
      · simp
      · simp only [ne_eq, Option.some.injEq]
        intro hc2
        apply hv
        rw [← hc2]
        simp only [if_true, Option.getD, if_false]
        rw [if_pos hnH, hlen]
        push_cast
        ring


theorem parsePath_swap_derivation_witness :
    (some 3 : Option Int) =
      some ((6 : Int) - ((["c", "d"].length : Nat) : Int) - 1 -
        (if false then 1 else 0)) ∧
    parsePathDerive (["a"] ++ "*" :: (["b"] ++ "*swap*" :: ["c", "d"])) (some 6)
      (some 0) none false = .error .swapMismatch :=
  ⟨((parsePath_swap_derivation 6 0 none false (by decide)).2.2 ["a"] ["b"] ["c", "d"]
      (by decide) (by decide) (by decide) (by decide) (by decide) (by decide)).1
      ["a"] ["b", "c", "d"] 6 (some 3) rfl,
   ((parsePath_swap_derivation 6 0 none false (by decide)).2.2 ["a"] ["b"] ["c", "d"]
      (by decide) (by decide) (by decide) (by decide) (by decide) (by decide)).2
      (by decide)⟩

/-- Resolution of a list of mandatory servers yields one entry per name. -/
theorem resolveServers_length (sl : List (SInfo × String))
    (fs : String → Option (Option SInfo)) (startAt endAt : Int) :
    ∀ (names : List NameSpec) (l : List (Option SInfo)),
      resolveServers sl fs startAt endAt names = .ok l → l.length = names.length := by
  intro names
  induction names with
  | nil =>
      intro l h
      simp only [resolveServers, Except.ok.injEq] at h
      rw [← h]
      rfl
  | cons n rest ih =>
      intro l h
      unfold resolveServers at h
      cases h1 : getServerInfo sl fs n startAt endAt true with
      | error e => rw [h1] at h; simp at h
      | ok oi =>
          rw [h1] at h
          cases h2 : resolveServers sl fs startAt endAt rest with
          | error e => rw [h2] at h; simp at h
          | ok l2 =>
              rw [h2] at h
              simp only [Except.ok.injEq] at h
              rw [← h]
              simp [ih l2 h2]

/-- A passing relay-capability check means every checked hop is a resolved
descriptor declaring `relay`. -/
theorem checkRelayCaps_ok :
    ∀ (l : List (Option SInfo)), checkRelayCaps l = .ok () →
      ∀ x ∈ l, ∃ i, x = some i ∧ i.caps.contains "relay" = true := by
  intro l
  induction l with
  | nil => intro _ x hx; simp at hx
  | cons a rest ih =>
      intro h x hx
      cases a with
      | none => simp [checkRelayCaps] at h
      | some i =>
          unfold checkRelayCaps at h
          by_cases hc : i.caps.contains "relay" = true
          · rw [if_pos hc] at h
            rcases List.mem_cons.mp hx with h1 | h1
            · exact ⟨i, h1, hc⟩
            · exact ih h x h1
          · rw [if_neg hc] at h
            simp at h

/-- A passing exit-capability check means the last hop is a resolved
descriptor declaring the required capability. -/
theorem checkExitCap_ok (exitCap : Option String) (path : List (Option SInfo))
    (h : checkExitCap exitCap path = .ok ()) :
    ∀ c, exitCap = some c →
      ∃ i, path.getLast? = some (some i) ∧ i.caps.contains c = true := by
  intro c hc
  subst hc
  unfold checkExitCap at h
  cases hl : path.getLast? with
  | none => simp only [hl] at h; simp at h
  | some x =>
      cases x with
      | none => simp only [hl] at h; simp at h
      | some i =>
          simp only [hl] at h
          by_cases hcap : i.caps.contains c = true
          · exact ⟨i, rfl, hcap⟩
          · rw [if_neg hcap] at h
            simp at h

/-- The rejection-sampling loop returns exactly the requested number of
additional middle hops. -/
theorem pickLoop_length (prng : PRNGModel) (midList : List SInfo) :
    ∀ (fuel k : Nat) (pn en : String) (nNeeded : Int) (acc out : List SInfo),
      0 ≤ nNeeded →
      pickLoop prng midList fuel k pn en nNeeded acc = .ok out →
      (out.length : Int) = acc.length + nNeeded := by
  intro fuel
  induction fuel with
  | zero =>
      intro k pn en nNeeded acc out hpos h
      unfold pickLoop at h
      by_cases h0 : nNeeded = 0
      · rw [if_pos h0] at h
        simp only [Except.ok.injEq] at h
        rw [← h, h0]
        simp
      · rw [if_neg h0] at h
        simp at h
  | succ fuel ih =>
      intro k pn en nNeeded acc out hpos h
      unfold pickLoop at h
      by_cases h0 : nNeeded = 0
      · rw [if_pos h0] at h
        simp only [Except.ok.injEq] at h
        rw [← h, h0]
        simp
      · rw [if_neg h0] at h
        simp only [] at h
        by_cases hc : pyLower (prng.pickAt k midList).nickname ≠ pn ∧
            (1 < nNeeded ∨ pyLower (prng.pickAt k midList).nickname ≠ en)
        · rw [if_pos hc] at h
          have := ih (k + 1) (pyLower (prng.pickAt k midList).nickname) en
            (nNeeded - 1) (acc ++ [prng.pickAt k midList]) out (by omega) h
          rw [this]
          simp
        · rw [if_neg hc] at h
          exact ih (k + 1) pn en nNeeded acc out hpos h

/-- Length of an `k`-fold list repetition. -/
theorem replicate_flatten_length {α : Type} (k : Nat) (l : List α) :
    ((List.replicate k l).flatten).length = k * l.length := by
  induction k with
  | zero => simp
  | succ k ih => simp [List.replicate_succ, ih, Nat.succ_mul, Nat.add_comm]

/-- With at least two usable relays and length-preserving shuffles, the
middle-hop selection returns `starts ++ mids ++ ends` with exactly the
requested number of middle hops. -/
theorem getPathMid_length (sl : List (SInfo × String)) (prng : PRNGModel) (fuel : Nat)
    (midCap : Option String) (startAt endAt : Int)
    (starts ends out : List (Option SInfo)) (nNeeded : Int)
    (hwf1 : ∀ (l : List SInfo) (k : Nat), k ≤ l.length → (prng.shuffleTake l k).length = k)
    (hwf2 : ∀ (l : List SInfo), (prng.shuffleAll l).length = l.length)
    (hpos : 0 ≤ nNeeded)
    (hmid : 2 ≤ (dirFind (byCapability sl midCap) startAt endAt).length)
    (hok : getPathMid sl prng fuel midCap startAt endAt starts ends nNeeded = .ok out) :
    (out.length : Int) = starts.length + ends.length + nNeeded := by
  unfold getPathMid at hok
  by_cases h0 : nNeeded = 0
  · rw [if_pos h0] at hok
    simp only [Except.ok.injEq] at hok
    rw [← hok, h0]
    simp
  · rw [if_neg h0] at hok
    cases hnl : nickListOf (starts ++ ends) with
    | error e => simp only [hnl] at hok; simp at hok
    | ok used =>
        simp only [hnl] at hok
        set midList := dirFind (byCapability sl midCap) startAt endAt with hml
        set unused := midList.filter
          (fun i => !(used.contains (pyLower i.nickname))) with hun
        by_cases hle : nNeeded ≤ (unused.length : Int)
        · rw [if_pos hle] at hok
          simp only [Except.ok.injEq] at hok
          rw [← hok]
          have hk : nNeeded.toNat ≤ unused.length := by omega
          simp [hwf1 unused nNeeded.toNat hk]
          omega
        · rw [if_neg hle] at hok
          by_cases h3 : 3 ≤ midList.length
          · rw [if_pos h3] at hok
            cases hpn : prevNickOf starts with
            | error e => simp only [hpn] at hok; simp at hok
            | ok prevNick =>
                simp only [hpn] at hok
                cases hen : endNickOf ends with
                | error e => simp only [hen] at hok; simp at hok
                | ok endNick =>
                    simp only [hen] at hok
                    cases hpl : pickLoop prng midList fuel 0 prevNick endNick nNeeded [] with
                    | error e => simp only [hpl] at hok; simp at hok
                    | ok mids =>
                        simp only [hpl, Except.ok.injEq] at hok
                        rw [← hok]
                        have := pickLoop_length prng midList fuel 0 prevNick endNick
                          nNeeded [] mids hpos hpl
                        simp at this
                        simp [this]
                        omega
          · rw [if_neg h3] at hok
            by_cases h2 : midList.length = 2
            · rw [if_pos h2] at hok
              simp only [Except.ok.injEq] at hok
              rw [← hok]
              have hfl : ((List.replicate ((nNeeded.toNat + 1) / 2)
                  (prng.shuffleAll midList)).flatten).length =
                  ((nNeeded.toNat + 1) / 2) * 2 := by
                rw [replicate_flatten_length, hwf2, h2]
              have htake : ((List.replicate ((nNeeded.toNat + 1) / 2)
                  (prng.shuffleAll midList)).flatten.take nNeeded.toNat).length =
                  nNeeded.toNat := by
                rw [List.length_take, hfl]
                omega
              simp only [List.length_append, List.length_map, htake]
              omega
            · rw [if_neg h2] at hok
              by_cases h1 : midList.length = 1
              · omega
              · rw [if_neg h1] at hok
                simp at hok

/-- With at least two usable relays, a positive requested length that
accommodates the mandatory servers, and length-preserving shuffles,
`getPath` returns exactly the requested number of hops. -/
theorem getPath_length (sl : List (SInfo × String)) (fs : String → Option (Option SInfo))
    (prng : PRNGModel) (fuel : Nat) (midCap endCap : Option String) (n : Int)
    (startServers endServers : List NameSpec) (startAt endAt : Int)
    (out : List (Option SInfo))
    (hwf1 : ∀ (l : List SInfo) (k : Nat), k ≤ l.length → (prng.shuffleTake l k).length = k)
    (hwf2 : ∀ (l : List SInfo), (prng.shuffleAll l).length = l.length)
    (h0 : 0 < n)
    (hfit : (startServers.length : Int) + endServers.length ≤ n)
    (hmid : 2 ≤ (dirFind (byCapability sl midCap) startAt endAt).length)
    (hok : getPath sl fs prng fuel midCap endCap (some n) startServers endServers
        startAt endAt = .ok out) :
    (out.length : Int) = n := by
  unfold getPath at hok
  cases hs : resolveServers sl fs startAt endAt startServers with
  | error e => simp only [hs] at hok; simp at hok
  | ok starts =>
      simp only [hs] at hok
      cases he : resolveServers sl fs startAt endAt endServers with
      | error e => simp only [he] at hok; simp at hok
      | ok ends =>
          simp only [he] at hok
          have hsl : starts.length = startServers.length :=
            resolveServers_length sl fs startAt endAt startServers starts hs
          have hel : ends.length = endServers.length :=
            resolveServers_length sl fs startAt endAt endServers ends he
          have hne : ((some n : Option Int).getD 0 ≠ 0) := by
            simp
            omega
          rw [if_pos hne] at hok
          simp only [Option.getD_some] at hok
          by_cases hz : n - (starts.length : Int) - ends.length ≤ 0
          · rw [if_pos hz] at hok
            simp only [Except.ok.injEq] at hok
            rw [← hok]
            simp only [List.length_append]
            push_cast
            omega
          · rw [if_neg hz] at hok
            by_cases hee : ends = []
            · rw [if_pos hee] at hok
              by_cases hel0 : dirFind (byCapability sl endCap) startAt endAt = []
              · rw [if_pos hel0] at hok
                simp at hok
              · rw [if_neg hel0] at hok
                cases hnl : nickListOf starts with
                | error e => simp only [hnl] at hok; simp at hok
                | ok used =>
                    simp only [hnl] at hok
                    have := getPathMid_length sl prng fuel midCap startAt endAt starts
                      _ out (n - starts.length - ends.length - 1) hwf1 hwf2
                      (by omega) hmid hok
                    rw [this]
                    subst hee
                    simp
            · rw [if_neg hee] at hok
              have := getPathMid_length sl prng fuel midCap startAt endAt starts
                ends out (n - starts.length - ends.length) hwf1 hwf2
                (by omega) hmid hok
              rw [this]
              omega

/-- C5: a successfully resolved forward path is split into two non-empty
legs whose concatenation is the composed route; every non-terminal hop of
that route is a resolved descriptor declaring the `relay` capability and,
when the address demands an exit capability (`mbox` for MBOX, `smtp` for
SMTP), the terminal hop declares it, any violation having failed earlier
with the capability `MixError`; under length-preserving shuffles, no
address-mandated last hop, a positive requested length accommodating the
mandatory servers, and at least TWO usable relays, the route has exactly
the requested number of hops (with a single known relay the code instead
returns a shorter path — see the counterexample); and on a reply half-path
(`nSwap = -1`) the first leg is empty and `parsePathLeg` returns the
second leg alone. -/
theorem resolvePath_postconditions
    (sl : List (SInfo × String)) (fs : String → Option (Option SInfo))
    (prng : PRNGModel) (fuel : Nat) (address : Option Address)
    (enterPath exitPath : List NameSpec) (n : Int) (nSwap : Option Int)
    (startAt endAt : Int) (p1 p2 : List (Option SInfo))
    (hok : resolvePath sl fs prng fuel address enterPath exitPath (some n) nSwap
        startAt endAt false = .ok (p1, p2)) :
    (p1 ≠ [] ∧ p2 ≠ []) ∧
    (∀ x ∈ (p1 ++ p2).dropLast, ∃ i, x = some i ∧ i.caps.contains "relay" = true) ∧
    (∀ a c, address = some a → exitCapOf (some a.exitType) = some c →
        ∃ i, (p1 ++ p2).getLast? = some (some i) ∧ i.caps.contains c = true) ∧
    ((∀ (l : List SInfo) (k : Nat), k ≤ l.length → (prng.shuffleTake l k).length = k) →
     (∀ (l : List SInfo), (prng.shuffleAll l).length = l.length) →
     (∀ a, address = some a → a.lastHop = none) →
     0 < n → (enterPath.length : Int) + exitPath.length ≤ n →
     2 ≤ (dirFind (byCapability sl (some "relay")) startAt endAt).length →
     ((p1 ++ p2).length : Int) = n) ∧
    (∀ q1 q2, resolvePath sl fs prng fuel address enterPath exitPath (some n)
        (some (-1)) startAt endAt true = .ok (q1, q2) → q1 = []) ∧
    (∀ pathStr defaultNHops q2,
        parsePathLeg sl fs prng fuel pathStr (some n) address startAt endAt
          defaultNHops = .ok q2 →
        parsePath sl fs prng fuel pathStr address (some n) (some (-1)) startAt endAt
          true defaultNHops = .ok ([], q2)) := by
  unfold resolvePath at hok
  simp only [] at hok
  generalize hen : (match address with
      | none => none | some a => a.lastHop) = exitNodeName at hok
  generalize hrt : (match address with
      | none => none | some a => some a.exitType) = routingType at hok
  split at hok
  · simp at hok
  · rename_i exitNode hexit
    split at hok
    · simp at hok
    · rename_i path hgp
      split at hok
      · simp at hok
      · rename_i u hrc
        split at hok
        · simp at hok
        · rename_i u2 hec
          split at hok
          · simp at hok
          · rename_i hcond
            simp only [Except.ok.injEq, Prod.mk.injEq] at hok
            obtain ⟨hp1, hp2⟩ := hok
            have happ : p1 ++ p2 = path := by
              rw [← hp1, ← hp2]
              exact List.take_append_drop _ path
            push_neg at hcond
            refine ⟨?_, ?_, ?_, ?_, ?_, ?_⟩
            · rw [← hp1, ← hp2]
              exact hcond (by simp)
            · intro x hx
              rw [happ] at hx
              exact checkRelayCaps_ok path.dropLast hrc x hx
            · intro a c ha hc
              subst ha
              simp only [] at hrt
              rw [hrt] at hc
              rw [happ]
              exact checkExitCap_ok _ path hec c hc
            · intro hwf1 hwf2 hnolast h0 hfit hmid
              have hmatch : exitNodeName = none := by
                rw [← hen]
                cases address with
                | none => rfl
                | some a => exact hnolast a rfl
              rw [hmatch] at hexit
              unfold resolveExitNode at hexit
              simp only [Except.ok.injEq] at hexit
              rw [← hexit] at hgp
              simp only [] at hgp
              rw [happ]
              exact getPath_length sl fs prng fuel (some "relay") _ n
                enterPath exitPath startAt endAt path hwf1 hwf2 h0 hfit hmid hgp
            · intro q1 q2 hq
              unfold resolvePath at hq
              simp only [hen, hrt] at hq
              simp only [hexit, hgp, hrc, hec] at hq
              split at hq
              · simp at hq
              · simp only [Except.ok.injEq, Prod.mk.injEq] at hq
                rw [← hq.1]
                simp [swapIndexOf]
            · intro pathStr defaultNHops q2 hq
              unfold parsePathLeg at hq
              cases hp : parsePath sl fs prng fuel pathStr address (some n)
                  (some (-1)) startAt endAt true defaultNHops with
              | error e => simp only [hp] at hq; simp at hq
              | ok pr =>
                  simp only [hp] at hq
                  obtain ⟨q1, q2x⟩ := pr
                  by_cases hq1 : q1 = []
                  · rw [if_pos hq1] at hq
                    simp only [Except.ok.injEq] at hq
                    rw [hq1, hq]
                  · rw [if_neg hq1] at hq
                    simp at hq

/-- Counterexample to the unconditional exactly-`n`-hops reading: with a
single known relay and three hops requested, `resolvePath` succeeds with a
two-hop route (the `len(midList)==1` branch of `getPath`,
ClientMain.py:609-613). -/
theorem resolvePath_short_path_cex :
    resolvePath [(relayA, "D")] (fun _ => none) prngTest 10 none [] [] (some 3)
        none 0 100 false = .ok ([some relayA], [some relayA]) ∧
    (([some relayA] ++ [some relayA] : List (Option SInfo)).length : Int) ≠ 3 :=
  ⟨rfl, by decide⟩

/-- Concrete instance of the C5 postconditions: two relays, two hops
requested, all hypotheses discharged. -/
theorem resolvePath_postconditions_witness :
    ∃ p1 p2 : List (Option SInfo),
      (p1 ≠ [] ∧ p2 ≠ []) ∧
      (∀ x ∈ (p1 ++ p2).dropLast, ∃ i, x = some i ∧ i.caps.contains "relay" = true) ∧
      (∀ a c, (none : Option Address) = some a → exitCapOf (some a.exitType) = some c →
          ∃ i, (p1 ++ p2).getLast? = some (some i) ∧ i.caps.contains c = true) ∧
      ((∀ (l : List SInfo) (k : Nat), k ≤ l.length → (prngTest.shuffleTake l k).length = k) →
       (∀ (l : List SInfo), (prngTest.shuffleAll l).length = l.length) →
       (∀ a, (none : Option Address) = some a → a.lastHop = none) →
       0 < (2 : Int) → (([] : List NameSpec).length : Int) + ([] : List NameSpec).length ≤ 2 →
       2 ≤ (dirFind (byCapability [(relayA, "D"), (relayB, "D")] (some "relay")) 0 100).length →
       ((p1 ++ p2).length : Int) = 2) ∧
      (∀ q1 q2, resolvePath [(relayA, "D"), (relayB, "D")] (fun _ => none) prngTest 10
          none [] [] (some 2) (some (-1)) 0 100 true = .ok (q1, q2) → q1 = []) ∧
      (∀ pathStr defaultNHops q2,
          parsePathLeg [(relayA, "D"), (relayB, "D")] (fun _ => none) prngTest 10 pathStr
            (some 2) none 0 100 defaultNHops = .ok q2 →
          parsePath [(relayA, "D"), (relayB, "D")] (fun _ => none) prngTest 10 pathStr none
            (some 2) (some (-1)) 0 100 true defaultNHops = .ok ([], q2)) :=
  ⟨[some relayB], [some relayA],
    resolvePath_postconditions [(relayA, "D"), (relayB, "D")] (fun _ => none) prngTest 10
      none [] [] 2 none 0 100 [some relayB] [some relayA] rfl⟩
